import Mathlib

/-!
Shallow embedding of the lattice-Boltzmann (D2Q9) fluid solver of the
SalmonProject repository (class `LBMSimulation`), together with proofs of the
frozen specification claims.  Arrays of the TypeScript class become total
functions `Nat → ℚ` (the claims are stated "in exact arithmetic", so machine
floats are modelled by rationals); the in-place loops become left folds over
explicit iteration-order lists that reproduce the source's loop order exactly.
-/

namespace SalmonLBM

/-- Constant `four9ths = 4/9` from the source. -/
def four9ths : ℚ := 4 / 9

/-- Constant `one9th = 1/9` from the source. -/
def one9th : ℚ := 1 / 9

/-- Constant `one36th = 1/36` from the source. -/
def one36th : ℚ := 1 / 36

/-- State of an `LBMSimulation` object: the nine distribution arrays, the
macroscopic fields, the barrier map, the barrier accumulators, the sensor
position and the tracer arrays, all indexed by the linear index
`i = x + y * xdim` exactly as in the source. -/
@[ext]
structure LBMState where
  xdim : Nat
  ydim : Nat
  n0 : Nat → ℚ
  nN : Nat → ℚ
  nS : Nat → ℚ
  nE : Nat → ℚ
  nW : Nat → ℚ
  nNE : Nat → ℚ
  nSE : Nat → ℚ
  nNW : Nat → ℚ
  nSW : Nat → ℚ
  rho : Nat → ℚ
  ux : Nat → ℚ
  uy : Nat → ℚ
  curl : Nat → ℚ
  barrier : Nat → Bool
  barrierCount : Nat
  barrierxSum : Nat
  barrierySum : Nat
  barrierFx : ℚ
  barrierFy : ℚ
  sensorX : Nat
  sensorY : Nat
  tracerX : Nat → ℚ
  tracerY : Nat → ℚ

/-- The nine distribution values sitting at one grid cell. -/
structure Cell where
  c0 : ℚ
  cN : ℚ
  cS : ℚ
  cE : ℚ
  cW : ℚ
  cNE : ℚ
  cSE : ℚ
  cNW : ℚ
  cSW : ℚ
deriving DecidableEq

/-- The nine populations at linear index `i`. -/
def cellAt (s : LBMState) (i : Nat) : Cell :=
  ⟨s.n0 i, s.nN i, s.nS i, s.nE i, s.nW i, s.nNE i, s.nSE i, s.nNW i, s.nSW i⟩

/-- Equilibrium distribution for density `newrho` and velocity
`(newux, newuy)`, exactly the nine formulas of `setEquil` (also used verbatim
inside `collide`). -/
def eqCell (newrho newux newuy : ℚ) : Cell :=
  let ux3 := 3 * newux
  let uy3 := 3 * newuy
  let ux2 := newux * newux
  let uy2 := newuy * newuy
  let u2 := ux2 + uy2
  let u215 := 1.5 * u2
  let uxuy2 := 2 * newux * newuy
  { c0 := four9ths * newrho * (1 - u215)
    cE := one9th * newrho * (1 + ux3 + 4.5 * ux2 - u215)
    cW := one9th * newrho * (1 - ux3 + 4.5 * ux2 - u215)
    cN := one9th * newrho * (1 + uy3 + 4.5 * uy2 - u215)
    cS := one9th * newrho * (1 - uy3 + 4.5 * uy2 - u215)
    cNE := one36th * newrho * (1 + ux3 + uy3 + 4.5 * (u2 + uxuy2) - u215)
    cSE := one36th * newrho * (1 + ux3 - uy3 + 4.5 * (u2 - uxuy2) - u215)
    cNW := one36th * newrho * (1 - ux3 + uy3 + 4.5 * (u2 - uxuy2) - u215)
    cSW := one36th * newrho * (1 - ux3 - uy3 + 4.5 * (u2 + uxuy2) - u215) }

/-- `setEquil(x, y, newux, newuy, newrho?)`: writes the equilibrium
distribution at `(x,y)` and stores the macroscopic fields there; when
`newrho?` is `none` the current density at the cell is used (the optional
argument of the source). -/
def setEquil (s : LBMState) (x y : Nat) (newux newuy : ℚ) (newrho? : Option ℚ) :
    LBMState :=
  let i := x + y * s.xdim
  let newrho := newrho?.getD (s.rho i)
  let c := eqCell newrho newux newuy
  { s with
    n0 := Function.update s.n0 i c.c0
    nE := Function.update s.nE i c.cE
    nW := Function.update s.nW i c.cW
    nN := Function.update s.nN i c.cN
    nS := Function.update s.nS i c.cS
    nNE := Function.update s.nNE i c.cNE
    nSE := Function.update s.nSE i c.cSE
    nNW := Function.update s.nNW i c.cNW
    nSW := Function.update s.nSW i c.cSW
    rho := Function.update s.rho i newrho
    ux := Function.update s.ux i newux
    uy := Function.update s.uy i newuy }

/-- `initFluid(u0)`: equilibrium at density 1 and velocity `(u0, 0)` at every
cell, zero curl, sensor at the grid center. -/
def initFluid (u0 : ℚ) (s : LBMState) : LBMState :=
  let X := s.xdim
  let Y := s.ydim
  let s1 := (List.range Y).foldl (fun st y =>
    (List.range X).foldl (fun st2 x =>
      let st3 := setEquil st2 x y u0 0 (some 1)
      { st3 with curl := Function.update st3.curl (x + y * X) 0 }) st) s
  { s1 with sensorX := X / 2, sensorY := Y / 2 }

/-- `addBarrier(x, y)`: marks the cell as solid, guarded away from the edges. -/
def addBarrier (s : LBMState) (x y : Nat) : LBMState :=
  if 1 < x ∧ x < s.xdim - 2 ∧ 1 < y ∧ y < s.ydim - 2 then
    { s with barrier := Function.update s.barrier (x + y * s.xdim) true }
  else s

/-- `setBoundaries(u0)`: equilibrium at density 1 and velocity `(u0, 0)` on
the top and bottom rows, then on the left and right columns. -/
def setBoundaries (u0 : ℚ) (s : LBMState) : LBMState :=
  let X := s.xdim
  let Y := s.ydim
  let s1 := (List.range X).foldl (fun st x =>
    setEquil (setEquil st x 0 u0 0 (some 1)) x (Y - 1) u0 0 (some 1)) s
  (List.range' 1 (Y - 2)).foldl (fun st y =>
    setEquil (setEquil st 0 y u0 0 (some 1)) (X - 1) y u0 0 (some 1)) s1

/-- Body of the interior pass of `collide` at one cell: from the nine old
populations, the recomputed `(rho, ux, uy)` and the nine relaxed
populations `n_k + omega * (n_k_eq - n_k)`. -/
def collideCellOut (omega : ℚ) (c : Cell) : Cell × ℚ × ℚ × ℚ :=
  let thisrho := c.c0 + c.cN + c.cS + c.cE + c.cW + c.cNW + c.cNE + c.cSW + c.cSE
  let thisux := (c.cE + c.cNE + c.cSE - c.cW - c.cNW - c.cSW) / thisrho
  let thisuy := (c.cN + c.cNE + c.cNW - c.cS - c.cSE - c.cSW) / thisrho
  let e := eqCell thisrho thisux thisuy
  (⟨c.c0 + omega * (e.c0 - c.c0),
    c.cN + omega * (e.cN - c.cN),
    c.cS + omega * (e.cS - c.cS),
    c.cE + omega * (e.cE - c.cE),
    c.cW + omega * (e.cW - c.cW),
    c.cNE + omega * (e.cNE - c.cNE),
    c.cSE + omega * (e.cSE - c.cSE),
    c.cNW + omega * (e.cNW - c.cNW),
    c.cSW + omega * (e.cSW - c.cSW)⟩, thisrho, thisux, thisuy)

/-- One iteration of the interior loop of `collide`, writing at index `i`. -/
def collideCell (omega : ℚ) (s : LBMState) (i : Nat) : LBMState :=
  let out := collideCellOut omega (cellAt s i)
  { s with
    rho := Function.update s.rho i out.2.1
    ux := Function.update s.ux i out.2.2.1
    uy := Function.update s.uy i out.2.2.2
    n0 := Function.update s.n0 i out.1.c0
    nN := Function.update s.nN i out.1.cN
    nS := Function.update s.nS i out.1.cS
    nE := Function.update s.nE i out.1.cE
    nW := Function.update s.nW i out.1.cW
    nNE := Function.update s.nNE i out.1.cNE
    nSE := Function.update s.nSE i out.1.cSE
    nNW := Function.update s.nNW i out.1.cNW
    nSW := Function.update s.nSW i out.1.cSW }

/-- One iteration of the East-boundary pass of `collide` at row `y`:
copies the West-pointing populations from one cell inboard. -/
def eastCopy (X : Nat) (st : LBMState) (y : Nat) : LBMState :=
  let i := X - 1 + y * X
  let im1 := i - 1
  { st with
    nW := Function.update st.nW i (st.nW im1)
    nNW := Function.update st.nNW i (st.nNW im1)
    nSW := Function.update st.nSW i (st.nSW im1) }

/-- Iteration order `for y in ys: for x in xs` as a list of `(x, y)` cells. -/
def cellsIn (ys xs : List Nat) : List (Nat × Nat) :=
  ys.flatMap fun y => xs.map fun x => (x, y)

/-- Ascending interior x range `1 .. xdim-2` (loop `for x=1; x<xdim-1; x++`). -/
def xsAsc (X : Nat) : List Nat := List.range' 1 (X - 2)

/-- Ascending interior y range `1 .. ydim-2` (loop `for y=1; y<ydim-1; y++`). -/
def ysAsc (Y : Nat) : List Nat := List.range' 1 (Y - 2)

/-- Descending interior x range `xdim-2 .. 1` (loop `for x=xdim-2; x>0; x--`). -/
def xsDesc (X : Nat) : List Nat := (List.range' 1 (X - 2)).reverse

/-- Descending interior y range `ydim-2 .. 1` (loop `for y=ydim-2; y>0; y--`). -/
def ysDesc (Y : Nat) : List Nat := (List.range' 1 (Y - 2)).reverse

/-- `collide(omega)`: interior BGK relaxation pass in ascending row-major
order, then the East-boundary outflow pass over rows `1 .. ydim-3`
(loop `for y=1; y<ydim-2; y++`). -/
def collide (omega : ℚ) (s : LBMState) : LBMState :=
  let X := s.xdim
  let Y := s.ydim
  let s1 := (cellsIn (ysAsc Y) (xsAsc X)).foldl
    (fun st p => collideCell omega st (p.1 + p.2 * X)) s
  (List.range' 1 (Y - 3)).foldl (fun st y => eastCopy X st y) s1

/-- Accumulator reset at the top of `stream()`. -/
def resetAcc (s : LBMState) : LBMState :=
  { s with barrierCount := 0, barrierxSum := 0, barrierySum := 0,
           barrierFx := 0, barrierFy := 0 }

/-- First sweep of `stream()`: North and Northwest, `y` descending,
`x` ascending. -/
def streamNNW (s : LBMState) : LBMState :=
  let X := s.xdim
  (cellsIn (ysDesc s.ydim) (xsAsc X)).foldl (fun st p =>
    { st with
      nN := Function.update st.nN (p.1 + p.2 * X) (st.nN (p.1 + (p.2 - 1) * X))
      nNW := Function.update st.nNW (p.1 + p.2 * X)
        (st.nNW (p.1 + 1 + (p.2 - 1) * X)) }) s

/-- Second sweep of `stream()`: East and Northeast, `y` descending,
`x` descending. -/
def streamENE (s : LBMState) : LBMState :=
  let X := s.xdim
  (cellsIn (ysDesc s.ydim) (xsDesc X)).foldl (fun st p =>
    { st with
      nE := Function.update st.nE (p.1 + p.2 * X) (st.nE (p.1 - 1 + p.2 * X))
      nNE := Function.update st.nNE (p.1 + p.2 * X)
        (st.nNE (p.1 - 1 + (p.2 - 1) * X)) }) s

/-- Third sweep of `stream()`: South and Southeast, `y` ascending,
`x` descending. -/
def streamSSE (s : LBMState) : LBMState :=
  let X := s.xdim
  (cellsIn (ysAsc s.ydim) (xsDesc X)).foldl (fun st p =>
    { st with
      nS := Function.update st.nS (p.1 + p.2 * X) (st.nS (p.1 + (p.2 + 1) * X))
      nSE := Function.update st.nSE (p.1 + p.2 * X)
        (st.nSE (p.1 - 1 + (p.2 + 1) * X)) }) s

/-- Fourth sweep of `stream()`: West and Southwest, `y` ascending,
`x` ascending. -/
def streamWSW (s : LBMState) : LBMState :=
  let X := s.xdim
  (cellsIn (ysAsc s.ydim) (xsAsc X)).foldl (fun st p =>
    { st with
      nW := Function.update st.nW (p.1 + p.2 * X) (st.nW (p.1 + 1 + p.2 * X))
      nSW := Function.update st.nSW (p.1 + p.2 * X)
        (st.nSW (p.1 + 1 + (p.2 + 1) * X)) }) s

/-- The four in-place directional sweeps of `stream()`, in source order. -/
def streamSweeps (s : LBMState) : LBMState :=
  streamWSW (streamSSE (streamENE (streamNNW s)))

/-- One iteration of the bounce-back pass at cell `p = (x, y)`: when the cell
is a barrier, reflect the eight directional populations to the opposite
neighbours and update the five barrier accumulators. -/
def bounceCell (X : Nat) (st : LBMState) (p : Nat × Nat) : LBMState :=
  if st.barrier (p.1 + p.2 * X) then
    let i := p.1 + p.2 * X
    let e := st.nE i
    let w := st.nW i
    let n := st.nN i
    let sv := st.nS i
    let ne := st.nNE i
    let nw := st.nNW i
    let se := st.nSE i
    let sw := st.nSW i
    { st with
      nE := Function.update st.nE (p.1 + 1 + p.2 * X) w
      nW := Function.update st.nW (p.1 - 1 + p.2 * X) e
      nN := Function.update st.nN (p.1 + (p.2 + 1) * X) sv
      nS := Function.update st.nS (p.1 + (p.2 - 1) * X) n
      nNE := Function.update st.nNE (p.1 + 1 + (p.2 + 1) * X) sw
      nNW := Function.update st.nNW (p.1 - 1 + (p.2 + 1) * X) se
      nSE := Function.update st.nSE (p.1 + 1 + (p.2 - 1) * X) nw
      nSW := Function.update st.nSW (p.1 - 1 + (p.2 - 1) * X) ne
      barrierCount := st.barrierCount + 1
      barrierxSum := st.barrierxSum + p.1
      barrierySum := st.barrierySum + p.2
      barrierFx := st.barrierFx + (e + ne + se - w - nw - sw)
      barrierFy := st.barrierFy + (n + ne + nw - sv - se - sw) }
  else st

/-- Bounce-back pass of `stream()` over the interior cells in ascending
row-major order. -/
def bouncePass (s : LBMState) : LBMState :=
  let X := s.xdim
  (cellsIn (ysAsc s.ydim) (xsAsc X)).foldl (fun st p => bounceCell X st p) s

/-- `stream()`: accumulator reset, the four in-place sweeps, then the
bounce-back pass. -/
def stream (s : LBMState) : LBMState :=
  bouncePass (streamSweeps (resetAcc s))

/-- Target cells of `pushFluid` around `(x, y)`, in source iteration order:
the cross rows `y+2` and `y-2` over `x-1 .. x+1`, then the 5×3 block
`x-2 .. x+2` × `y-1 .. y+1`. -/
def pushTargets (x y : Nat) : List (Nat × Nat) :=
  ((List.range 3).flatMap fun k => [(x - 1 + k, y + 2), (x - 1 + k, y - 2)]) ++
  ((List.range 5).flatMap fun k =>
    (List.range 3).map fun j => (x - 2 + k, y - 1 + j))

/-- `pushFluid(pushX, pushY, pushUX, pushUY)`: when the target point is
strictly more than `margin = 3` cells from every edge, overwrite the cross
and block cells with equilibrium distributions at the given velocity
(density taken from each cell); otherwise do nothing. -/
def pushFluid (s : LBMState) (pushX pushY : Nat) (pushUX pushUY : ℚ) :
    LBMState :=
  let X := s.xdim
  let Y := s.ydim
  let margin := 3
  if margin < pushX ∧ pushX < X - 1 - margin ∧
     margin < pushY ∧ pushY < Y - 1 - margin then
    (pushTargets pushX pushY).foldl
      (fun st p => setEquil st p.1 p.2 pushUX pushUY none) s
  else s

/-! Generic machinery: in-place gather folds (`scatter`), frame and
projection lemmas for the loop folds, and injectivity of the linear index. -/

/-- In-place gather fold over a pair list: each pair `(w, r)` overwrites
position `w` with the value currently stored at position `r`. -/
def scatter (f : Nat → ℚ) : List (Nat × Nat) → Nat → ℚ
  | [] => f
  | (w, r) :: l => scatter (Function.update f w (f r)) l

theorem scatter_of_not_mem (l : List (Nat × Nat)) :
    ∀ (f : Nat → ℚ) (j : Nat), j ∉ l.map Prod.fst → scatter f l j = f j := by
  induction l with
  | nil => intro f j _; rfl
  | cons p l ih =>
    intro f j hj
    obtain ⟨w, r⟩ := p
    simp only [List.map_cons, List.mem_cons, not_or] at hj
    rw [scatter, ih _ _ hj.2, Function.update_noteq hj.1]

theorem scatter_of_mem (l : List (Nat × Nat)) :
    ∀ (f : Nat → ℚ) (w r : Nat), (l.map Prod.fst).Nodup →
      l.Pairwise (fun a b => b.2 ≠ a.1) → (w, r) ∈ l → scatter f l w = f r := by
  induction l with
  | nil => intro f w r _ _ h; cases h
  | cons p l ih =>
    intro f w r hnd hpw hmem
    obtain ⟨w0, r0⟩ := p
    rw [scatter]
    rcases List.mem_cons.mp hmem with heq | hmem'
    · cases heq
      have hw : w ∉ l.map Prod.fst := by
        simp only [List.map_cons, List.nodup_cons] at hnd
        exact hnd.1
      rw [scatter_of_not_mem l _ _ hw, Function.update_same]
    · have hnd' : (l.map Prod.fst).Nodup := by
        simp only [List.map_cons, List.nodup_cons] at hnd
        exact hnd.2
      have hr : Function.update f w0 (f r0) r = f r :=
        Function.update_noteq ((List.pairwise_cons.mp hpw).1 _ hmem') _ _
      rw [ih _ _ _ hnd' hpw.of_cons hmem', hr]

theorem foldl_frame {α β : Type} (g : LBMState → β) (f : LBMState → α → LBMState)
    (h : ∀ st a, g (f st a) = g st) :
    ∀ (l : List α) (st : LBMState), g (l.foldl f st) = g st := by
  intro l
  induction l with
  | nil => intro st; rfl
  | cons a l ih => intro st; rw [List.foldl_cons, ih, h]

theorem foldl_scatter {α : Type} (get : LBMState → Nat → ℚ)
    (f : LBMState → α → LBMState) (w r : α → Nat)
    (h : ∀ st a, get (f st a) = Function.update (get st) (w a) (get st (r a))) :
    ∀ (l : List α) (st : LBMState),
      get (l.foldl f st) = scatter (get st) (l.map fun a => (w a, r a)) := by
  intro l
  induction l with
  | nil => intro st; rfl
  | cons a l ih =>
    intro st
    rw [List.foldl_cons, ih, List.map_cons, scatter, h]

theorem idx_inj {X a1 b1 a2 b2 : Nat} (h1 : a1 < X) (h2 : a2 < X)
    (h : a1 + b1 * X = a2 + b2 * X) : a1 = a2 ∧ b1 = b2 := by
  have ha : a1 = a2 := by
    have hmod := congrArg (· % X) h
    simpa [Nat.add_mul_mod_self_right, Nat.mod_eq_of_lt h1,
      Nat.mod_eq_of_lt h2] using hmod
  subst ha
  have hb : b1 * X = b2 * X := by omega
  exact ⟨rfl, Nat.eq_of_mul_eq_mul_right (by omega) hb⟩

theorem idx_ne {X a1 b1 a2 b2 : Nat} (h1 : a1 < X) (h2 : a2 < X)
    (h : a1 ≠ a2 ∨ b1 ≠ b2) : a1 + b1 * X ≠ a2 + b2 * X := by
  intro hcontra
  rcases idx_inj h1 h2 hcontra with ⟨ha, hb⟩
  rcases h with h | h <;> exact h (by omega)

theorem mem_cellsIn {ys xs : List Nat} {p : Nat × Nat} :
    p ∈ cellsIn ys xs ↔ p.1 ∈ xs ∧ p.2 ∈ ys := by
  obtain ⟨a, b⟩ := p
  simp only [cellsIn, List.mem_flatMap, List.mem_map]
  constructor
  · rintro ⟨y, hy, x, hx, heq⟩
    injection heq with e1 e2
    subst e1; subst e2
    exact ⟨hx, hy⟩
  · rintro ⟨ha, hb⟩
    exact ⟨b, hb, a, ha, rfl⟩

theorem nodup_cellsIn {ys xs : List Nat} (hys : ys.Nodup) (hxs : xs.Nodup) :
    (cellsIn ys xs).Nodup := by
  rw [cellsIn, List.nodup_flatMap]
  refine ⟨fun y _ => hxs.map fun a b hab => ?_, ?_⟩
  · exact congrArg Prod.fst hab
  · refine hys.imp fun {y1 y2} hne => ?_
    intro q hq1 hq2
    simp only [List.mem_map] at hq1 hq2
    obtain ⟨x1, _, rfl⟩ := hq1
    obtain ⟨x2, _, heq⟩ := hq2
    exact hne (congrArg Prod.snd heq).symm

theorem pairwise_cellsIn {ys xs : List Nat} {Ry Rx : Nat → Nat → Prop}
    (hys : ys.Pairwise Ry) (hxs : xs.Pairwise Rx) :
    (cellsIn ys xs).Pairwise
      (fun p q => Ry p.2 q.2 ∨ (p.2 = q.2 ∧ Rx p.1 q.1)) := by
  rw [cellsIn, List.pairwise_flatMap]
  constructor
  · intro y _
    rw [List.pairwise_map]
    exact hxs.imp fun h => Or.inr ⟨rfl, h⟩
  · refine hys.imp fun {y1 y2} hR => ?_
    intro q hq1 q' hq2
    simp only [List.mem_map] at hq1 hq2
    obtain ⟨x1, _, rfl⟩ := hq1
    obtain ⟨x2, _, rfl⟩ := hq2
    exact Or.inl hR

theorem mem_xsAsc {X x : Nat} : x ∈ xsAsc X ↔ 1 ≤ x ∧ x < X - 1 := by
  simp only [xsAsc, List.mem_range'_1]
  omega

theorem mem_ysAsc {Y y : Nat} : y ∈ ysAsc Y ↔ 1 ≤ y ∧ y < Y - 1 := by
  simp only [ysAsc, List.mem_range'_1]
  omega

theorem mem_xsDesc {X x : Nat} : x ∈ xsDesc X ↔ 1 ≤ x ∧ x < X - 1 := by
  simp only [xsDesc, List.mem_reverse]
  exact mem_xsAsc

theorem mem_ysDesc {Y y : Nat} : y ∈ ysDesc Y ↔ 1 ≤ y ∧ y < Y - 1 := by
  simp only [ysDesc, List.mem_reverse]
  exact mem_ysAsc

theorem nodup_xsAsc {X : Nat} : (xsAsc X).Nodup := List.nodup_range' ..

theorem nodup_ysAsc {Y : Nat} : (ysAsc Y).Nodup := List.nodup_range' ..

theorem nodup_xsDesc {X : Nat} : (xsDesc X).Nodup :=
  (List.nodup_reverse).mpr (List.nodup_range' ..)

theorem nodup_ysDesc {Y : Nat} : (ysDesc Y).Nodup :=
  (List.nodup_reverse).mpr (List.nodup_range' ..)

theorem pairwise_lt_xsAsc {X : Nat} : (xsAsc X).Pairwise (· < ·) :=
  List.pairwise_lt_range' ..

theorem pairwise_lt_ysAsc {Y : Nat} : (ysAsc Y).Pairwise (· < ·) :=
  List.pairwise_lt_range' ..

theorem pairwise_gt_xsDesc {X : Nat} : (xsDesc X).Pairwise (· > ·) :=
  (List.pairwise_reverse).mpr (List.pairwise_lt_range' ..)

theorem pairwise_gt_ysDesc {Y : Nat} : (ysDesc Y).Pairwise (· > ·) :=
  (List.pairwise_reverse).mpr (List.pairwise_lt_range' ..)

theorem nodup_idx_map {X : Nat} {cells : List (Nat × Nat)} (hnd : cells.Nodup)
    (hx : ∀ p ∈ cells, p.1 < X) :
    (cells.map fun p => p.1 + p.2 * X).Nodup :=
  hnd.map_on fun p hp q hq h => by
    rcases idx_inj (hx p hp) (hx q hq) h with ⟨h1, h2⟩
    exact Prod.ext h1 h2

theorem sweep_gather {X : Nat} (cells : List (Nat × Nat)) (rd : Nat × Nat → Nat)
    (f : Nat → ℚ) (hnd : cells.Nodup) (hx : ∀ p ∈ cells, p.1 < X)
    (hnc : cells.Pairwise fun p q => rd q ≠ p.1 + p.2 * X) {x y : Nat}
    (hmem : (x, y) ∈ cells) :
    scatter f (cells.map fun p => (p.1 + p.2 * X, rd p)) (x + y * X) =
      f (rd (x, y)) := by
  apply scatter_of_mem
  · rw [List.map_map]
    exact nodup_idx_map hnd hx
  · rw [List.pairwise_map]
    exact hnc
  · exact List.mem_map_of_mem _ hmem

theorem streamNNW_nN (s : LBMState) :
    (streamNNW s).nN = scatter s.nN
      ((cellsIn (ysDesc s.ydim) (xsAsc s.xdim)).map fun p =>
        (p.1 + p.2 * s.xdim, p.1 + (p.2 - 1) * s.xdim)) := by
  simp only [streamNNW]
  exact foldl_scatter LBMState.nN _ (fun p : Nat × Nat => p.1 + p.2 * s.xdim)
    (fun p : Nat × Nat => p.1 + (p.2 - 1) * s.xdim) (fun st a => rfl) _ s

theorem streamNNW_nNW (s : LBMState) :
    (streamNNW s).nNW = scatter s.nNW
      ((cellsIn (ysDesc s.ydim) (xsAsc s.xdim)).map fun p =>
        (p.1 + p.2 * s.xdim, p.1 + 1 + (p.2 - 1) * s.xdim)) := by
  simp only [streamNNW]
  exact foldl_scatter LBMState.nNW _ (fun p : Nat × Nat => p.1 + p.2 * s.xdim)
    (fun p : Nat × Nat => p.1 + 1 + (p.2 - 1) * s.xdim) (fun st a => rfl) _ s

theorem streamENE_nE (s : LBMState) :
    (streamENE s).nE = scatter s.nE
      ((cellsIn (ysDesc s.ydim) (xsDesc s.xdim)).map fun p =>
        (p.1 + p.2 * s.xdim, p.1 - 1 + p.2 * s.xdim)) := by
  simp only [streamENE]
  exact foldl_scatter LBMState.nE _ (fun p : Nat × Nat => p.1 + p.2 * s.xdim)
    (fun p : Nat × Nat => p.1 - 1 + p.2 * s.xdim) (fun st a => rfl) _ s

theorem streamENE_nNE (s : LBMState) :
    (streamENE s).nNE = scatter s.nNE
      ((cellsIn (ysDesc s.ydim) (xsDesc s.xdim)).map fun p =>
        (p.1 + p.2 * s.xdim, p.1 - 1 + (p.2 - 1) * s.xdim)) := by
  simp only [streamENE]
  exact foldl_scatter LBMState.nNE _ (fun p : Nat × Nat => p.1 + p.2 * s.xdim)
    (fun p : Nat × Nat => p.1 - 1 + (p.2 - 1) * s.xdim) (fun st a => rfl) _ s

theorem streamSSE_nS (s : LBMState) :
    (streamSSE s).nS = scatter s.nS
      ((cellsIn (ysAsc s.ydim) (xsDesc s.xdim)).map fun p =>
        (p.1 + p.2 * s.xdim, p.1 + (p.2 + 1) * s.xdim)) := by
  simp only [streamSSE]
  exact foldl_scatter LBMState.nS _ (fun p : Nat × Nat => p.1 + p.2 * s.xdim)
    (fun p : Nat × Nat => p.1 + (p.2 + 1) * s.xdim) (fun st a => rfl) _ s

theorem streamSSE_nSE (s : LBMState) :
    (streamSSE s).nSE = scatter s.nSE
      ((cellsIn (ysAsc s.ydim) (xsDesc s.xdim)).map fun p =>
        (p.1 + p.2 * s.xdim, p.1 - 1 + (p.2 + 1) * s.xdim)) := by
  simp only [streamSSE]
  exact foldl_scatter LBMState.nSE _ (fun p : Nat × Nat => p.1 + p.2 * s.xdim)
    (fun p : Nat × Nat => p.1 - 1 + (p.2 + 1) * s.xdim) (fun st a => rfl) _ s

theorem streamWSW_nW (s : LBMState) :
    (streamWSW s).nW = scatter s.nW
      ((cellsIn (ysAsc s.ydim) (xsAsc s.xdim)).map fun p =>
        (p.1 + p.2 * s.xdim, p.1 + 1 + p.2 * s.xdim)) := by
  simp only [streamWSW]
  exact foldl_scatter LBMState.nW _ (fun p : Nat × Nat => p.1 + p.2 * s.xdim)
    (fun p : Nat × Nat => p.1 + 1 + p.2 * s.xdim) (fun st a => rfl) _ s

theorem streamWSW_nSW (s : LBMState) :
    (streamWSW s).nSW = scatter s.nSW
      ((cellsIn (ysAsc s.ydim) (xsAsc s.xdim)).map fun p =>
        (p.1 + p.2 * s.xdim, p.1 + 1 + (p.2 + 1) * s.xdim)) := by
  simp only [streamWSW]
  exact foldl_scatter LBMState.nSW _ (fun p : Nat × Nat => p.1 + p.2 * s.xdim)
    (fun p : Nat × Nat => p.1 + 1 + (p.2 + 1) * s.xdim) (fun st a => rfl) _ s

theorem streamNNW_nN_at (s : LBMState) {X Y x y : Nat}
    (hX : s.xdim = X) (hY : s.ydim = Y)
    (hx : 1 ≤ x) (hx2 : x < X - 1) (hy : 1 ≤ y) (hy2 : y < Y - 1) :
    (streamNNW s).nN (x + y * X) = s.nN (x + (y - 1) * X) := by
  subst hX
  subst hY
  rw [streamNNW_nN]
  refine sweep_gather _ _ _ (nodup_cellsIn nodup_ysDesc nodup_xsAsc) ?_ ?_
    (mem_cellsIn.mpr ⟨mem_xsAsc.mpr ⟨hx, hx2⟩, mem_ysDesc.mpr ⟨hy, hy2⟩⟩)
  · intro p hp
    have := mem_xsAsc.mp (mem_cellsIn.mp hp).1
    omega
  · refine List.Pairwise.imp_of_mem ?_
      (pairwise_cellsIn pairwise_gt_ysDesc pairwise_lt_xsAsc)
    intro p q hp hq hR
    obtain ⟨hpx, hpy⟩ := mem_cellsIn.mp hp
    obtain ⟨hqx, hqy⟩ := mem_cellsIn.mp hq
    rw [mem_xsAsc] at hpx hqx
    rw [mem_ysDesc] at hpy hqy
    rcases hR with h | ⟨h1, h2⟩ <;>
      exact idx_ne (by omega) (by omega) (Or.inr (by omega))

theorem streamNNW_nNW_at (s : LBMState) {X Y x y : Nat}
    (hX : s.xdim = X) (hY : s.ydim = Y)
    (hx : 1 ≤ x) (hx2 : x < X - 1) (hy : 1 ≤ y) (hy2 : y < Y - 1) :
    (streamNNW s).nNW (x + y * X) = s.nNW (x + 1 + (y - 1) * X) := by
  subst hX
  subst hY
  rw [streamNNW_nNW]
  refine sweep_gather _ _ _ (nodup_cellsIn nodup_ysDesc nodup_xsAsc) ?_ ?_
    (mem_cellsIn.mpr ⟨mem_xsAsc.mpr ⟨hx, hx2⟩, mem_ysDesc.mpr ⟨hy, hy2⟩⟩)
  · intro p hp
    have := mem_xsAsc.mp (mem_cellsIn.mp hp).1
    omega
  · refine List.Pairwise.imp_of_mem ?_
      (pairwise_cellsIn pairwise_gt_ysDesc pairwise_lt_xsAsc)
    intro p q hp hq hR
    obtain ⟨hpx, hpy⟩ := mem_cellsIn.mp hp
    obtain ⟨hqx, hqy⟩ := mem_cellsIn.mp hq
    rw [mem_xsAsc] at hpx hqx
    rw [mem_ysDesc] at hpy hqy
    rcases hR with h | ⟨h1, h2⟩ <;>
      exact idx_ne (by omega) (by omega) (Or.inr (by omega))

theorem streamENE_nE_at (s : LBMState) {X Y x y : Nat}
    (hX : s.xdim = X) (hY : s.ydim = Y)
    (hx : 1 ≤ x) (hx2 : x < X - 1) (hy : 1 ≤ y) (hy2 : y < Y - 1) :
    (streamENE s).nE (x + y * X) = s.nE (x - 1 + y * X) := by
  subst hX
  subst hY
  rw [streamENE_nE]
  refine sweep_gather _ _ _ (nodup_cellsIn nodup_ysDesc nodup_xsDesc) ?_ ?_
    (mem_cellsIn.mpr ⟨mem_xsDesc.mpr ⟨hx, hx2⟩, mem_ysDesc.mpr ⟨hy, hy2⟩⟩)
  · intro p hp
    have := mem_xsDesc.mp (mem_cellsIn.mp hp).1
    omega
  · refine List.Pairwise.imp_of_mem ?_
      (pairwise_cellsIn pairwise_gt_ysDesc pairwise_gt_xsDesc)
    intro p q hp hq hR
    obtain ⟨hpx, hpy⟩ := mem_cellsIn.mp hp
    obtain ⟨hqx, hqy⟩ := mem_cellsIn.mp hq
    rw [mem_xsDesc] at hpx hqx
    rw [mem_ysDesc] at hpy hqy
    rcases hR with h | ⟨h1, h2⟩
    · exact idx_ne (by omega) (by omega) (Or.inr (by omega))
    · exact idx_ne (by omega) (by omega) (Or.inl (by omega))

theorem streamENE_nNE_at (s : LBMState) {X Y x y : Nat}
    (hX : s.xdim = X) (hY : s.ydim = Y)
    (hx : 1 ≤ x) (hx2 : x < X - 1) (hy : 1 ≤ y) (hy2 : y < Y - 1) :
    (streamENE s).nNE (x + y * X) = s.nNE (x - 1 + (y - 1) * X) := by
  subst hX
  subst hY
  rw [streamENE_nNE]
  refine sweep_gather _ _ _ (nodup_cellsIn nodup_ysDesc nodup_xsDesc) ?_ ?_
    (mem_cellsIn.mpr ⟨mem_xsDesc.mpr ⟨hx, hx2⟩, mem_ysDesc.mpr ⟨hy, hy2⟩⟩)
  · intro p hp
    have := mem_xsDesc.mp (mem_cellsIn.mp hp).1
    omega
  · refine List.Pairwise.imp_of_mem ?_
      (pairwise_cellsIn pairwise_gt_ysDesc pairwise_gt_xsDesc)
    intro p q hp hq hR
    obtain ⟨hpx, hpy⟩ := mem_cellsIn.mp hp
    obtain ⟨hqx, hqy⟩ := mem_cellsIn.mp hq
    rw [mem_xsDesc] at hpx hqx
    rw [mem_ysDesc] at hpy hqy
    rcases hR with h | ⟨h1, h2⟩ <;>
      exact idx_ne (by omega) (by omega) (Or.inr (by omega))

theorem streamSSE_nS_at (s : LBMState) {X Y x y : Nat}
    (hX : s.xdim = X) (hY : s.ydim = Y)
    (hx : 1 ≤ x) (hx2 : x < X - 1) (hy : 1 ≤ y) (hy2 : y < Y - 1) :
    (streamSSE s).nS (x + y * X) = s.nS (x + (y + 1) * X) := by
  subst hX
  subst hY
  rw [streamSSE_nS]
  refine sweep_gather _ _ _ (nodup_cellsIn nodup_ysAsc nodup_xsDesc) ?_ ?_
    (mem_cellsIn.mpr ⟨mem_xsDesc.mpr ⟨hx, hx2⟩, mem_ysAsc.mpr ⟨hy, hy2⟩⟩)
  · intro p hp
    have := mem_xsDesc.mp (mem_cellsIn.mp hp).1
    omega
  · refine List.Pairwise.imp_of_mem ?_
      (pairwise_cellsIn pairwise_lt_ysAsc pairwise_gt_xsDesc)
    intro p q hp hq hR
    obtain ⟨hpx, hpy⟩ := mem_cellsIn.mp hp
    obtain ⟨hqx, hqy⟩ := mem_cellsIn.mp hq
    rw [mem_xsDesc] at hpx hqx
    rw [mem_ysAsc] at hpy hqy
    rcases hR with h | ⟨h1, h2⟩ <;>
      exact idx_ne (by omega) (by omega) (Or.inr (by omega))

theorem streamSSE_nSE_at (s : LBMState) {X Y x y : Nat}
    (hX : s.xdim = X) (hY : s.ydim = Y)
    (hx : 1 ≤ x) (hx2 : x < X - 1) (hy : 1 ≤ y) (hy2 : y < Y - 1) :
    (streamSSE s).nSE (x + y * X) = s.nSE (x - 1 + (y + 1) * X) := by
  subst hX
  subst hY
  rw [streamSSE_nSE]
  refine sweep_gather _ _ _ (nodup_cellsIn nodup_ysAsc nodup_xsDesc) ?_ ?_
    (mem_cellsIn.mpr ⟨mem_xsDesc.mpr ⟨hx, hx2⟩, mem_ysAsc.mpr ⟨hy, hy2⟩⟩)
  · intro p hp
    have := mem_xsDesc.mp (mem_cellsIn.mp hp).1
    omega
  · refine List.Pairwise.imp_of_mem ?_
      (pairwise_cellsIn pairwise_lt_ysAsc pairwise_gt_xsDesc)
    intro p q hp hq hR
    obtain ⟨hpx, hpy⟩ := mem_cellsIn.mp hp
    obtain ⟨hqx, hqy⟩ := mem_cellsIn.mp hq
    rw [mem_xsDesc] at hpx hqx
    rw [mem_ysAsc] at hpy hqy
    rcases hR with h | ⟨h1, h2⟩ <;>
      exact idx_ne (by omega) (by omega) (Or.inr (by omega))

theorem streamWSW_nW_at (s : LBMState) {X Y x y : Nat}
    (hX : s.xdim = X) (hY : s.ydim = Y)
    (hx : 1 ≤ x) (hx2 : x < X - 1) (hy : 1 ≤ y) (hy2 : y < Y - 1) :
    (streamWSW s).nW (x + y * X) = s.nW (x + 1 + y * X) := by
  subst hX
  subst hY
  rw [streamWSW_nW]
  refine sweep_gather _ _ _ (nodup_cellsIn nodup_ysAsc nodup_xsAsc) ?_ ?_
    (mem_cellsIn.mpr ⟨mem_xsAsc.mpr ⟨hx, hx2⟩, mem_ysAsc.mpr ⟨hy, hy2⟩⟩)
  · intro p hp
    have := mem_xsAsc.mp (mem_cellsIn.mp hp).1
    omega
  · refine List.Pairwise.imp_of_mem ?_
      (pairwise_cellsIn pairwise_lt_ysAsc pairwise_lt_xsAsc)
    intro p q hp hq hR
    obtain ⟨hpx, hpy⟩ := mem_cellsIn.mp hp
    obtain ⟨hqx, hqy⟩ := mem_cellsIn.mp hq
    rw [mem_xsAsc] at hpx hqx
    rw [mem_ysAsc] at hpy hqy
    rcases hR with h | ⟨h1, h2⟩
    · exact idx_ne (by omega) (by omega) (Or.inr (by omega))
    · exact idx_ne (by omega) (by omega) (Or.inl (by omega))

theorem streamWSW_nSW_at (s : LBMState) {X Y x y : Nat}
    (hX : s.xdim = X) (hY : s.ydim = Y)
    (hx : 1 ≤ x) (hx2 : x < X - 1) (hy : 1 ≤ y) (hy2 : y < Y - 1) :
    (streamWSW s).nSW (x + y * X) = s.nSW (x + 1 + (y + 1) * X) := by
  subst hX
  subst hY
  rw [streamWSW_nSW]
  refine sweep_gather _ _ _ (nodup_cellsIn nodup_ysAsc nodup_xsAsc) ?_ ?_
    (mem_cellsIn.mpr ⟨mem_xsAsc.mpr ⟨hx, hx2⟩, mem_ysAsc.mpr ⟨hy, hy2⟩⟩)
  · intro p hp
    have := mem_xsAsc.mp (mem_cellsIn.mp hp).1
    omega
  · refine List.Pairwise.imp_of_mem ?_
      (pairwise_cellsIn pairwise_lt_ysAsc pairwise_lt_xsAsc)
    intro p q hp hq hR
    obtain ⟨hpx, hpy⟩ := mem_cellsIn.mp hp
    obtain ⟨hqx, hqy⟩ := mem_cellsIn.mp hq
    rw [mem_xsAsc] at hpx hqx
    rw [mem_ysAsc] at hpy hqy
    rcases hR with h | ⟨h1, h2⟩ <;>
      exact idx_ne (by omega) (by omega) (Or.inr (by omega))

theorem streamNNW_eq (s : LBMState) :
    streamNNW s =
      { s with nN := (streamNNW s).nN, nNW := (streamNNW s).nNW } := by
  simp only [streamNNW]
  apply LBMState.ext <;> first | rfl | (apply foldl_frame; intro st p; rfl)

theorem streamENE_eq (s : LBMState) :
    streamENE s =
      { s with nE := (streamENE s).nE, nNE := (streamENE s).nNE } := by
  simp only [streamENE]
  apply LBMState.ext <;> first | rfl | (apply foldl_frame; intro st p; rfl)

theorem streamSSE_eq (s : LBMState) :
    streamSSE s =
      { s with nS := (streamSSE s).nS, nSE := (streamSSE s).nSE } := by
  simp only [streamSSE]
  apply LBMState.ext <;> first | rfl | (apply foldl_frame; intro st p; rfl)

theorem streamWSW_eq (s : LBMState) :
    streamWSW s =
      { s with nW := (streamWSW s).nW, nSW := (streamWSW s).nSW } := by
  simp only [streamWSW]
  apply LBMState.ext <;> first | rfl | (apply foldl_frame; intro st p; rfl)

theorem bouncePass_eq (s : LBMState) :
    bouncePass s =
      { s with
        nN := (bouncePass s).nN, nS := (bouncePass s).nS
        nE := (bouncePass s).nE, nW := (bouncePass s).nW
        nNE := (bouncePass s).nNE, nSE := (bouncePass s).nSE
        nNW := (bouncePass s).nNW, nSW := (bouncePass s).nSW
        barrierCount := (bouncePass s).barrierCount
        barrierxSum := (bouncePass s).barrierxSum
        barrierySum := (bouncePass s).barrierySum
        barrierFx := (bouncePass s).barrierFx
        barrierFy := (bouncePass s).barrierFy } := by
  simp only [bouncePass]
  apply LBMState.ext <;>
    first
      | rfl
      | (apply foldl_frame; intro st p; simp only [bounceCell]; split <;> rfl)

/-- C1: the four in-place directional sweeps of `stream()` are observationally
equivalent to double-buffered streaming: after the sweeps (before bounce-back),
every directional population at every interior cell equals the value that
population had at its upstream neighbour cell before `stream()` was called;
no sweep write clobbers a source value still needed by a later read. -/
theorem stream_sweeps_gather (s : LBMState) (x y : Nat)
    (hx : 1 ≤ x) (hx2 : x < s.xdim - 1) (hy : 1 ≤ y) (hy2 : y < s.ydim - 1) :
    ((streamSweeps (resetAcc s)).nN (x + y * s.xdim) =
        s.nN (x + (y - 1) * s.xdim)) ∧
    ((streamSweeps (resetAcc s)).nNW (x + y * s.xdim) =
        s.nNW (x + 1 + (y - 1) * s.xdim)) ∧
    ((streamSweeps (resetAcc s)).nE (x + y * s.xdim) =
        s.nE (x - 1 + y * s.xdim)) ∧
    ((streamSweeps (resetAcc s)).nNE (x + y * s.xdim) =
        s.nNE (x - 1 + (y - 1) * s.xdim)) ∧
    ((streamSweeps (resetAcc s)).nS (x + y * s.xdim) =
        s.nS (x + (y + 1) * s.xdim)) ∧
    ((streamSweeps (resetAcc s)).nSE (x + y * s.xdim) =
        s.nSE (x - 1 + (y + 1) * s.xdim)) ∧
    ((streamSweeps (resetAcc s)).nW (x + y * s.xdim) =
        s.nW (x + 1 + y * s.xdim)) ∧
    ((streamSweeps (resetAcc s)).nSW (x + y * s.xdim) =
        s.nSW (x + 1 + (y + 1) * s.xdim)) := by
  have h0x : (resetAcc s).xdim = s.xdim := rfl
  have h0y : (resetAcc s).ydim = s.ydim := rfl
  have h1x : (streamNNW (resetAcc s)).xdim = s.xdim := by
    rw [streamNNW_eq]; exact h0x
  have h1y : (streamNNW (resetAcc s)).ydim = s.ydim := by
    rw [streamNNW_eq]; exact h0y
  have h2x : (streamENE (streamNNW (resetAcc s))).xdim = s.xdim := by
    rw [streamENE_eq]; exact h1x
  have h2y : (streamENE (streamNNW (resetAcc s))).ydim = s.ydim := by
    rw [streamENE_eq]; exact h1y
  have h3x : (streamSSE (streamENE (streamNNW (resetAcc s)))).xdim = s.xdim := by
    rw [streamSSE_eq]; exact h2x
  have h3y : (streamSSE (streamENE (streamNNW (resetAcc s)))).ydim = s.ydim := by
    rw [streamSSE_eq]; exact h2y
  have wN : ∀ t : LBMState, (streamWSW t).nN = t.nN := fun t => by
    rw [streamWSW_eq]
  have wNW : ∀ t : LBMState, (streamWSW t).nNW = t.nNW := fun t => by
    rw [streamWSW_eq]
  have wE : ∀ t : LBMState, (streamWSW t).nE = t.nE := fun t => by
    rw [streamWSW_eq]
  have wNE : ∀ t : LBMState, (streamWSW t).nNE = t.nNE := fun t => by
    rw [streamWSW_eq]
  have wS : ∀ t : LBMState, (streamWSW t).nS = t.nS := fun t => by
    rw [streamWSW_eq]
  have wSE : ∀ t : LBMState, (streamWSW t).nSE = t.nSE := fun t => by
    rw [streamWSW_eq]
  have sN : ∀ t : LBMState, (streamSSE t).nN = t.nN := fun t => by
    rw [streamSSE_eq]
  have sNW : ∀ t : LBMState, (streamSSE t).nNW = t.nNW := fun t => by
    rw [streamSSE_eq]
  have sE : ∀ t : LBMState, (streamSSE t).nE = t.nE := fun t => by
    rw [streamSSE_eq]
  have sNE : ∀ t : LBMState, (streamSSE t).nNE = t.nNE := fun t => by
    rw [streamSSE_eq]
  have eN : ∀ t : LBMState, (streamENE t).nN = t.nN := fun t => by
    rw [streamENE_eq]
  have eNW : ∀ t : LBMState, (streamENE t).nNW = t.nNW := fun t => by
    rw [streamENE_eq]
  have nS2 : ∀ t : LBMState, (streamNNW t).nS = t.nS := fun t => by
    rw [streamNNW_eq]
  have nSE2 : ∀ t : LBMState, (streamNNW t).nSE = t.nSE := fun t => by
    rw [streamNNW_eq]
  have nE2 : ∀ t : LBMState, (streamNNW t).nE = t.nE := fun t => by
    rw [streamNNW_eq]
  have nNE2 : ∀ t : LBMState, (streamNNW t).nNE = t.nNE := fun t => by
    rw [streamNNW_eq]
  have nW2 : ∀ t : LBMState, (streamNNW t).nW = t.nW := fun t => by
    rw [streamNNW_eq]
  have nSW2 : ∀ t : LBMState, (streamNNW t).nSW = t.nSW := fun t => by
    rw [streamNNW_eq]
  have eS : ∀ t : LBMState, (streamENE t).nS = t.nS := fun t => by
    rw [streamENE_eq]
  have eSE : ∀ t : LBMState, (streamENE t).nSE = t.nSE := fun t => by
    rw [streamENE_eq]
  have eW : ∀ t : LBMState, (streamENE t).nW = t.nW := fun t => by
    rw [streamENE_eq]
  have eSW : ∀ t : LBMState, (streamENE t).nSW = t.nSW := fun t => by
    rw [streamENE_eq]
  have sW : ∀ t : LBMState, (streamSSE t).nW = t.nW := fun t => by
    rw [streamSSE_eq]
  have sSW : ∀ t : LBMState, (streamSSE t).nSW = t.nSW := fun t => by
    rw [streamSSE_eq]
  refine ⟨?_, ?_, ?_, ?_, ?_, ?_, ?_, ?_⟩
  · simp only [streamSweeps]
    rw [wN, sN, eN, streamNNW_nN_at _ h0x h0y hx hx2 hy hy2]; rfl
  · simp only [streamSweeps]
    rw [wNW, sNW, eNW, streamNNW_nNW_at _ h0x h0y hx hx2 hy hy2]; rfl
  · simp only [streamSweeps]
    rw [wE, sE, streamENE_nE_at _ h1x h1y hx hx2 hy hy2, nE2]; rfl
  · simp only [streamSweeps]
    rw [wNE, sNE, streamENE_nNE_at _ h1x h1y hx hx2 hy hy2, nNE2]; rfl
  · simp only [streamSweeps]
    rw [wS, streamSSE_nS_at _ h2x h2y hx hx2 hy hy2, eS, nS2]; rfl
  · simp only [streamSweeps]
    rw [wSE, streamSSE_nSE_at _ h2x h2y hx hx2 hy hy2, eSE, nSE2]; rfl
  · simp only [streamSweeps]
    rw [streamWSW_nW_at _ h3x h3y hx hx2 hy hy2, sW, eW, nW2]; rfl
  · simp only [streamSweeps]
    rw [streamWSW_nSW_at _ h3x h3y hx hx2 hy hy2, sSW, eSW, nSW2]; rfl

/-- Fresh simulation state of the given dimensions, as built by the class
constructor: all arrays zero-filled, no barriers, zero accumulators. -/
def baseState (X Y : Nat) : LBMState where
  xdim := X
  ydim := Y
  n0 := fun _ => 0
  nN := fun _ => 0
  nS := fun _ => 0
  nE := fun _ => 0
  nW := fun _ => 0
  nNE := fun _ => 0
  nSE := fun _ => 0
  nNW := fun _ => 0
  nSW := fun _ => 0
  rho := fun _ => 0
  ux := fun _ => 0
  uy := fun _ => 0
  curl := fun _ => 0
  barrier := fun _ => false
  barrierCount := 0
  barrierxSum := 0
  barrierySum := 0
  barrierFx := 0
  barrierFy := 0
  sensorX := 0
  sensorY := 0
  tracerX := fun _ => 0
  tracerY := fun _ => 0

/-- Witness for C1 at a concrete 4×4 grid and the interior cell (1,1). -/
theorem stream_sweeps_gather_witness :
    (1 ≤ 1 ∧ 1 < (baseState 4 4).xdim - 1 ∧ 1 < (baseState 4 4).ydim - 1) ∧
    (((streamSweeps (resetAcc (baseState 4 4))).nN
        (1 + 1 * (baseState 4 4).xdim) =
        (baseState 4 4).nN (1 + (1 - 1) * (baseState 4 4).xdim)) ∧
    ((streamSweeps (resetAcc (baseState 4 4))).nNW
        (1 + 1 * (baseState 4 4).xdim) =
        (baseState 4 4).nNW (1 + 1 + (1 - 1) * (baseState 4 4).xdim)) ∧
    ((streamSweeps (resetAcc (baseState 4 4))).nE
        (1 + 1 * (baseState 4 4).xdim) =
        (baseState 4 4).nE (1 - 1 + 1 * (baseState 4 4).xdim)) ∧
    ((streamSweeps (resetAcc (baseState 4 4))).nNE
        (1 + 1 * (baseState 4 4).xdim) =
        (baseState 4 4).nNE (1 - 1 + (1 - 1) * (baseState 4 4).xdim)) ∧
    ((streamSweeps (resetAcc (baseState 4 4))).nS
        (1 + 1 * (baseState 4 4).xdim) =
        (baseState 4 4).nS (1 + (1 + 1) * (baseState 4 4).xdim)) ∧
    ((streamSweeps (resetAcc (baseState 4 4))).nSE
        (1 + 1 * (baseState 4 4).xdim) =
        (baseState 4 4).nSE (1 - 1 + (1 + 1) * (baseState 4 4).xdim)) ∧
    ((streamSweeps (resetAcc (baseState 4 4))).nW
        (1 + 1 * (baseState 4 4).xdim) =
        (baseState 4 4).nW (1 + 1 + 1 * (baseState 4 4).xdim)) ∧
    ((streamSweeps (resetAcc (baseState 4 4))).nSW
        (1 + 1 * (baseState 4 4).xdim) =
        (baseState 4 4).nSW (1 + 1 + (1 + 1) * (baseState 4 4).xdim))) :=
  ⟨⟨le_refl 1, by decide, by decide⟩,
    stream_sweeps_gather (baseState 4 4) 1 1 (le_refl 1) (by decide) (le_refl 1)
      (by decide)⟩

/-! Pointwise characterization of `collide`: the interior pass reads and
writes each cell independently, so at every interior cell its effect is the
pure function `collideCellOut` applied to the old populations. -/

theorem collideCell_ne (omega : ℚ) (s : LBMState) (i j : Nat) (h : j ≠ i) :
    cellAt (collideCell omega s i) j = cellAt s j ∧
    (collideCell omega s i).rho j = s.rho j ∧
    (collideCell omega s i).ux j = s.ux j ∧
    (collideCell omega s i).uy j = s.uy j := by
  refine ⟨?_, ?_, ?_, ?_⟩ <;>
    simp [collideCell, cellAt, Function.update_noteq h]

theorem collideCell_self (omega : ℚ) (s : LBMState) (i : Nat) :
    cellAt (collideCell omega s i) i = (collideCellOut omega (cellAt s i)).1 ∧
    (collideCell omega s i).rho i = (collideCellOut omega (cellAt s i)).2.1 ∧
    (collideCell omega s i).ux i = (collideCellOut omega (cellAt s i)).2.2.1 ∧
    (collideCell omega s i).uy i = (collideCellOut omega (cellAt s i)).2.2.2 := by
  refine ⟨?_, ?_, ?_, ?_⟩ <;>
    simp [collideCell, cellAt, Function.update_same]

theorem collidePass_not_mem (omega : ℚ) (X : Nat) (l : List (Nat × Nat)) :
    ∀ (s : LBMState) (j : Nat), (∀ p ∈ l, p.1 + p.2 * X ≠ j) →
      cellAt (l.foldl (fun st q => collideCell omega st (q.1 + q.2 * X)) s) j =
          cellAt s j ∧
      (l.foldl (fun st q => collideCell omega st (q.1 + q.2 * X)) s).rho j =
          s.rho j ∧
      (l.foldl (fun st q => collideCell omega st (q.1 + q.2 * X)) s).ux j =
          s.ux j ∧
      (l.foldl (fun st q => collideCell omega st (q.1 + q.2 * X)) s).uy j =
          s.uy j := by
  induction l with
  | nil => intro s j _; exact ⟨rfl, rfl, rfl, rfl⟩
  | cons q l ih =>
    intro s j h
    have hq : j ≠ q.1 + q.2 * X := (h q (List.mem_cons_self ..)).symm
    rw [List.foldl_cons]
    obtain ⟨h1, h2, h3, h4⟩ := ih (collideCell omega s (q.1 + q.2 * X)) j
      (fun p hp => h p (List.mem_cons_of_mem _ hp))
    obtain ⟨c1, c2, c3, c4⟩ := collideCell_ne omega s (q.1 + q.2 * X) j hq
    exact ⟨h1.trans c1, h2.trans c2, h3.trans c3, h4.trans c4⟩

theorem collidePass_mem (omega : ℚ) (X : Nat) (l : List (Nat × Nat)) :
    ∀ (s : LBMState), ((l.map fun p => p.1 + p.2 * X).Nodup) → ∀ p ∈ l,
      cellAt (l.foldl (fun st q => collideCell omega st (q.1 + q.2 * X)) s)
          (p.1 + p.2 * X) =
        (collideCellOut omega (cellAt s (p.1 + p.2 * X))).1 ∧
      (l.foldl (fun st q => collideCell omega st (q.1 + q.2 * X)) s).rho
          (p.1 + p.2 * X) =
        (collideCellOut omega (cellAt s (p.1 + p.2 * X))).2.1 ∧
      (l.foldl (fun st q => collideCell omega st (q.1 + q.2 * X)) s).ux
          (p.1 + p.2 * X) =
        (collideCellOut omega (cellAt s (p.1 + p.2 * X))).2.2.1 ∧
      (l.foldl (fun st q => collideCell omega st (q.1 + q.2 * X)) s).uy
          (p.1 + p.2 * X) =
        (collideCellOut omega (cellAt s (p.1 + p.2 * X))).2.2.2 := by
  induction l with
  | nil => intro s _ p hp; cases hp
  | cons q l ih =>
    intro s hnd p hp
    rw [List.foldl_cons]
    simp only [List.map_cons, List.nodup_cons] at hnd
    rcases List.mem_cons.mp hp with heq | hp'
    · subst heq
      have hnot : ∀ r ∈ l, r.1 + r.2 * X ≠ p.1 + p.2 * X := by
        intro r hr hcontra
        exact hnd.1 (hcontra ▸ List.mem_map_of_mem _ hr)
      obtain ⟨h1, h2, h3, h4⟩ := collidePass_not_mem omega X l
        (collideCell omega s (p.1 + p.2 * X)) _ hnot
      obtain ⟨g1, g2, g3, g4⟩ := collideCell_self omega s (p.1 + p.2 * X)
      exact ⟨h1.trans g1, h2.trans g2, h3.trans g3, h4.trans g4⟩
    · have hne : p.1 + p.2 * X ≠ q.1 + q.2 * X := by
        intro hcontra
        exact hnd.1 (hcontra ▸ List.mem_map_of_mem _ hp')
      obtain ⟨c1, c2, c3, c4⟩ := collideCell_ne omega s (q.1 + q.2 * X)
        (p.1 + p.2 * X) hne
      obtain ⟨i1, i2, i3, i4⟩ := ih (collideCell omega s (q.1 + q.2 * X))
        hnd.2 p hp'
      exact ⟨i1.trans (by rw [c1]), i2.trans (by rw [c1]),
        i3.trans (by rw [c1]), i4.trans (by rw [c1])⟩

theorem eastFold_eq (X : Nat) (l : List Nat) (s : LBMState) :
    l.foldl (fun st y => eastCopy X st y) s =
      { s with
        nW := (l.foldl (fun st y => eastCopy X st y) s).nW
        nNW := (l.foldl (fun st y => eastCopy X st y) s).nNW
        nSW := (l.foldl (fun st y => eastCopy X st y) s).nSW } := by
  apply LBMState.ext <;> first | rfl | (apply foldl_frame; intro st a; rfl)

theorem eastFold_not_mem (X : Nat) (l : List Nat) :
    ∀ (s : LBMState) (j : Nat), (∀ y ∈ l, X - 1 + y * X ≠ j) →
      (l.foldl (fun st y => eastCopy X st y) s).nW j = s.nW j ∧
      (l.foldl (fun st y => eastCopy X st y) s).nNW j = s.nNW j ∧
      (l.foldl (fun st y => eastCopy X st y) s).nSW j = s.nSW j := by
  induction l with
  | nil => intro s j _; exact ⟨rfl, rfl, rfl⟩
  | cons a l ih =>
    intro s j h
    have ha : j ≠ X - 1 + a * X := (h a (List.mem_cons_self ..)).symm
    rw [List.foldl_cons]
    obtain ⟨h1, h2, h3⟩ := ih (eastCopy X s a) j
      (fun b hb => h b (List.mem_cons_of_mem _ hb))
    refine ⟨h1.trans ?_, h2.trans ?_, h3.trans ?_⟩ <;>
      simp [eastCopy, Function.update_noteq ha]

theorem collide_at (omega : ℚ) (s : LBMState) {X Y x y : Nat}
    (hX : s.xdim = X) (hY : s.ydim = Y) (hx : 1 ≤ x) (hx2 : x < X - 1)
    (hy : 1 ≤ y) (hy2 : y < Y - 1) :
    cellAt (collide omega s) (x + y * X) =
      (collideCellOut omega (cellAt s (x + y * X))).1 ∧
    (collide omega s).rho (x + y * X) =
      (collideCellOut omega (cellAt s (x + y * X))).2.1 ∧
    (collide omega s).ux (x + y * X) =
      (collideCellOut omega (cellAt s (x + y * X))).2.2.1 ∧
    (collide omega s).uy (x + y * X) =
      (collideCellOut omega (cellAt s (x + y * X))).2.2.2 := by
  subst hX
  subst hY
  simp only [collide]
  have hcol : ∀ y' ∈ List.range' 1 (s.ydim - 3),
      s.xdim - 1 + y' * s.xdim ≠ x + y * s.xdim := by
    intro y' _
    exact idx_ne (by omega) (by omega) (Or.inl (by omega))
  obtain ⟨e1, e2, e3⟩ := eastFold_not_mem s.xdim (List.range' 1 (s.ydim - 3))
    ((cellsIn (ysAsc s.ydim) (xsAsc s.xdim)).foldl
      (fun st p => collideCell omega st (p.1 + p.2 * s.xdim)) s)
    (x + y * s.xdim) hcol
  have heW : ∀ t : LBMState,
      ((List.range' 1 (s.ydim - 3)).foldl (fun st y => eastCopy s.xdim st y) t).n0 =
        t.n0 := fun t => by rw [eastFold_eq]
  have heN : ∀ t : LBMState,
      ((List.range' 1 (s.ydim - 3)).foldl (fun st y => eastCopy s.xdim st y) t).nN =
        t.nN := fun t => by rw [eastFold_eq]
  have heS : ∀ t : LBMState,
      ((List.range' 1 (s.ydim - 3)).foldl (fun st y => eastCopy s.xdim st y) t).nS =
        t.nS := fun t => by rw [eastFold_eq]
  have heE : ∀ t : LBMState,
      ((List.range' 1 (s.ydim - 3)).foldl (fun st y => eastCopy s.xdim st y) t).nE =
        t.nE := fun t => by rw [eastFold_eq]
  have heNE : ∀ t : LBMState,
      ((List.range' 1 (s.ydim - 3)).foldl (fun st y => eastCopy s.xdim st y) t).nNE =
        t.nNE := fun t => by rw [eastFold_eq]
  have heSE : ∀ t : LBMState,
      ((List.range' 1 (s.ydim - 3)).foldl (fun st y => eastCopy s.xdim st y) t).nSE =
        t.nSE := fun t => by rw [eastFold_eq]
  have heRho : ∀ t : LBMState,
      ((List.range' 1 (s.ydim - 3)).foldl (fun st y => eastCopy s.xdim st y) t).rho =
        t.rho := fun t => by rw [eastFold_eq]
  have heUx : ∀ t : LBMState,
      ((List.range' 1 (s.ydim - 3)).foldl (fun st y => eastCopy s.xdim st y) t).ux =
        t.ux := fun t => by rw [eastFold_eq]
  have heUy : ∀ t : LBMState,
      ((List.range' 1 (s.ydim - 3)).foldl (fun st y => eastCopy s.xdim st y) t).uy =
        t.uy := fun t => by rw [eastFold_eq]
  have hnd : ((cellsIn (ysAsc s.ydim) (xsAsc s.xdim)).map
      fun p => p.1 + p.2 * s.xdim).Nodup := by
    refine nodup_idx_map (nodup_cellsIn nodup_ysAsc nodup_xsAsc) ?_
    intro p hp
    have := mem_xsAsc.mp (mem_cellsIn.mp hp).1
    omega
  obtain ⟨m1, m2, m3, m4⟩ := collidePass_mem omega s.xdim
    (cellsIn (ysAsc s.ydim) (xsAsc s.xdim)) s hnd (x, y)
    (mem_cellsIn.mpr ⟨mem_xsAsc.mpr ⟨hx, hx2⟩, mem_ysAsc.mpr ⟨hy, hy2⟩⟩)
  refine ⟨?_, ?_, ?_, ?_⟩
  · have : cellAt ((List.range' 1 (s.ydim - 3)).foldl
        (fun st y => eastCopy s.xdim st y)
        ((cellsIn (ysAsc s.ydim) (xsAsc s.xdim)).foldl
          (fun st p => collideCell omega st (p.1 + p.2 * s.xdim)) s))
        (x + y * s.xdim) =
        cellAt ((cellsIn (ysAsc s.ydim) (xsAsc s.xdim)).foldl
          (fun st p => collideCell omega st (p.1 + p.2 * s.xdim)) s)
        (x + y * s.xdim) := by
      simp only [cellAt]
      rw [e1, e2, e3, heW, heN, heS, heE, heNE, heSE]
    exact this.trans m1
  · rw [heRho]; exact m2
  · rw [heUx]; exact m3
  · rw [heUy]; exact m4

/-- Sum of the nine populations at cell `i`, in the summation order of the
source's density computation. -/
def cellSum (s : LBMState) (i : Nat) : ℚ :=
  s.n0 i + s.nN i + s.nS i + s.nE i + s.nW i +
    s.nNW i + s.nNE i + s.nSW i + s.nSE i

theorem cellSum_cellAt (s : LBMState) (i : Nat) :
    cellSum s i =
      (cellAt s i).c0 + (cellAt s i).cN + (cellAt s i).cS + (cellAt s i).cE +
        (cellAt s i).cW + (cellAt s i).cNW + (cellAt s i).cNE +
        (cellAt s i).cSW + (cellAt s i).cSE := rfl

theorem collideCellOut_sum (omega : ℚ) (c : Cell) :
    (collideCellOut omega c).1.c0 + (collideCellOut omega c).1.cN +
      (collideCellOut omega c).1.cS + (collideCellOut omega c).1.cE +
      (collideCellOut omega c).1.cW + (collideCellOut omega c).1.cNW +
      (collideCellOut omega c).1.cNE + (collideCellOut omega c).1.cSW +
      (collideCellOut omega c).1.cSE =
    c.c0 + c.cN + c.cS + c.cE + c.cW + c.cNW + c.cNE + c.cSW + c.cSE := by
  simp only [collideCellOut, eqCell, four9ths, one9th, one36th]
  ring

/-- C2: the collision step conserves mass cell-by-cell: at every interior
cell and for every omega, `collide(omega)` leaves the sum of the nine
populations unchanged (exact arithmetic). -/
theorem collide_mass_conserved (omega : ℚ) (s : LBMState) {x y : Nat}
    (hx : 1 ≤ x) (hx2 : x < s.xdim - 1) (hy : 1 ≤ y) (hy2 : y < s.ydim - 1) :
    cellSum (collide omega s) (x + y * s.xdim) = cellSum s (x + y * s.xdim) := by
  obtain ⟨hc, -, -, -⟩ := collide_at omega s rfl rfl hx hx2 hy hy2
  rw [cellSum_cellAt, cellSum_cellAt, hc]
  exact collideCellOut_sum omega (cellAt s (x + y * s.xdim))

/-- Witness for C2 on a concrete 4×4 grid, interior cell (1,1), omega 1. -/
theorem collide_mass_conserved_witness :
    (1 ≤ 1 ∧ 1 < (baseState 4 4).xdim - 1 ∧ 1 < (baseState 4 4).ydim - 1) ∧
    cellSum (collide 1 (baseState 4 4)) (1 + 1 * (baseState 4 4).xdim) =
      cellSum (baseState 4 4) (1 + 1 * (baseState 4 4).xdim) :=
  ⟨⟨le_refl 1, by decide, by decide⟩,
    collide_mass_conserved 1 (baseState 4 4) (le_refl 1) (by decide) (le_refl 1)
      (by decide)⟩

/-- C3: equilibrium round-trip: after `setEquil(x, y, ux, uy, rho)` the nine
populations at the cell sum to `rho`, their first x-moment is `rho * ux` and
their first y-moment is `rho * uy` (exact arithmetic), so recomputing the
macroscopic fields reproduces the inputs. -/
theorem setEquil_roundtrip (s : LBMState) (x y : Nat) (newux newuy newrho : ℚ)
    (hx : x < s.xdim) (hy : y < s.ydim) :
    cellSum (setEquil s x y newux newuy (some newrho)) (x + y * s.xdim) =
      newrho ∧
    (setEquil s x y newux newuy (some newrho)).nE (x + y * s.xdim) +
      (setEquil s x y newux newuy (some newrho)).nNE (x + y * s.xdim) +
      (setEquil s x y newux newuy (some newrho)).nSE (x + y * s.xdim) -
      (setEquil s x y newux newuy (some newrho)).nW (x + y * s.xdim) -
      (setEquil s x y newux newuy (some newrho)).nNW (x + y * s.xdim) -
      (setEquil s x y newux newuy (some newrho)).nSW (x + y * s.xdim) =
      newrho * newux ∧
    (setEquil s x y newux newuy (some newrho)).nN (x + y * s.xdim) +
      (setEquil s x y newux newuy (some newrho)).nNE (x + y * s.xdim) +
      (setEquil s x y newux newuy (some newrho)).nNW (x + y * s.xdim) -
      (setEquil s x y newux newuy (some newrho)).nS (x + y * s.xdim) -
      (setEquil s x y newux newuy (some newrho)).nSE (x + y * s.xdim) -
      (setEquil s x y newux newuy (some newrho)).nSW (x + y * s.xdim) =
      newrho * newuy := by
  refine ⟨?_, ?_, ?_⟩ <;>
    (simp [cellSum, setEquil, eqCell, Function.update_same,
      four9ths, one9th, one36th]; ring)

/-- Witness for C3 on a concrete 5×5 grid at cell (2,3) with
`ux = 1/10`, `uy = -1/5`, `rho = 2`. -/
theorem setEquil_roundtrip_witness :
    ((2 : Nat) < (baseState 5 5).xdim ∧ (3 : Nat) < (baseState 5 5).ydim) ∧
    (cellSum (setEquil (baseState 5 5) 2 3 (1/10) (-(1/5)) (some 2))
        (2 + 3 * (baseState 5 5).xdim) = 2 ∧
    (setEquil (baseState 5 5) 2 3 (1/10) (-(1/5)) (some 2)).nE
        (2 + 3 * (baseState 5 5).xdim) +
      (setEquil (baseState 5 5) 2 3 (1/10) (-(1/5)) (some 2)).nNE
        (2 + 3 * (baseState 5 5).xdim) +
      (setEquil (baseState 5 5) 2 3 (1/10) (-(1/5)) (some 2)).nSE
        (2 + 3 * (baseState 5 5).xdim) -
      (setEquil (baseState 5 5) 2 3 (1/10) (-(1/5)) (some 2)).nW
        (2 + 3 * (baseState 5 5).xdim) -
      (setEquil (baseState 5 5) 2 3 (1/10) (-(1/5)) (some 2)).nNW
        (2 + 3 * (baseState 5 5).xdim) -
      (setEquil (baseState 5 5) 2 3 (1/10) (-(1/5)) (some 2)).nSW
        (2 + 3 * (baseState 5 5).xdim) =
      2 * (1/10) ∧
    (setEquil (baseState 5 5) 2 3 (1/10) (-(1/5)) (some 2)).nN
        (2 + 3 * (baseState 5 5).xdim) +
      (setEquil (baseState 5 5) 2 3 (1/10) (-(1/5)) (some 2)).nNE
        (2 + 3 * (baseState 5 5).xdim) +
      (setEquil (baseState 5 5) 2 3 (1/10) (-(1/5)) (some 2)).nNW
        (2 + 3 * (baseState 5 5).xdim) -
      (setEquil (baseState 5 5) 2 3 (1/10) (-(1/5)) (some 2)).nS
        (2 + 3 * (baseState 5 5).xdim) -
      (setEquil (baseState 5 5) 2 3 (1/10) (-(1/5)) (some 2)).nSE
        (2 + 3 * (baseState 5 5).xdim) -
      (setEquil (baseState 5 5) 2 3 (1/10) (-(1/5)) (some 2)).nSW
        (2 + 3 * (baseState 5 5).xdim) =
      2 * (-(1/5))) :=
  ⟨⟨by decide, by decide⟩,
    setEquil_roundtrip (baseState 5 5) 2 3 (1/10) (-(1/5)) 2 (by decide)
      (by decide)⟩

/-! C4: a uniform-equilibrium state is a one-step fixed point of
`setBoundaries; collide; stream` as far as the macroscopic fields go. -/

theorem eqCell_sum (r u v : ℚ) :
    (eqCell r u v).c0 + (eqCell r u v).cN + (eqCell r u v).cS +
      (eqCell r u v).cE + (eqCell r u v).cW + (eqCell r u v).cNW +
      (eqCell r u v).cNE + (eqCell r u v).cSW + (eqCell r u v).cSE = r := by
  simp only [eqCell, four9ths, one9th, one36th]
  ring

theorem eqCell_xmom (r u v : ℚ) :
    (eqCell r u v).cE + (eqCell r u v).cNE + (eqCell r u v).cSE -
      (eqCell r u v).cW - (eqCell r u v).cNW - (eqCell r u v).cSW = r * u := by
  simp only [eqCell, four9ths, one9th, one36th]
  ring

theorem eqCell_ymom (r u v : ℚ) :
    (eqCell r u v).cN + (eqCell r u v).cNE + (eqCell r u v).cNW -
      (eqCell r u v).cS - (eqCell r u v).cSE - (eqCell r u v).cSW = r * v := by
  simp only [eqCell, four9ths, one9th, one36th]
  ring

theorem collideCellOut_rho (omega : ℚ) (c : Cell) :
    (collideCellOut omega c).2.1 =
      c.c0 + c.cN + c.cS + c.cE + c.cW + c.cNW + c.cNE + c.cSW + c.cSE := rfl

theorem collideCellOut_ux (omega : ℚ) (c : Cell) :
    (collideCellOut omega c).2.2.1 =
      (c.cE + c.cNE + c.cSE - c.cW - c.cNW - c.cSW) /
        (c.c0 + c.cN + c.cS + c.cE + c.cW + c.cNW + c.cNE + c.cSW + c.cSE) :=
  rfl

theorem collideCellOut_uy (omega : ℚ) (c : Cell) :
    (collideCellOut omega c).2.2.2 =
      (c.cN + c.cNE + c.cNW - c.cS - c.cSE - c.cSW) /
        (c.c0 + c.cN + c.cS + c.cE + c.cW + c.cNW + c.cNE + c.cSW + c.cSE) :=
  rfl

theorem collideCellOut_uniform (omega u0 : ℚ) :
    (collideCellOut omega (eqCell 1 u0 0)).2.1 = 1 ∧
    (collideCellOut omega (eqCell 1 u0 0)).2.2.1 = u0 ∧
    (collideCellOut omega (eqCell 1 u0 0)).2.2.2 = 0 := by
  refine ⟨?_, ?_, ?_⟩
  · rw [collideCellOut_rho, eqCell_sum]
  · rw [collideCellOut_ux, eqCell_xmom, eqCell_sum]
    norm_num
  · rw [collideCellOut_uy, eqCell_ymom, eqCell_sum]
    norm_num

theorem foldl_preserves {α : Type} (P : LBMState → Prop)
    (f : LBMState → α → LBMState) (hf : ∀ st a, P st → P (f st a)) :
    ∀ (l : List α) (st : LBMState), P st → P (l.foldl f st) := by
  intro l
  induction l with
  | nil => intro st h; exact h
  | cons a l ih => intro st h; rw [List.foldl_cons]; exact ih _ (hf st a h)

theorem setEquil_uniform {u0 : ℚ} {X Y : Nat} {st : LBMState}
    (h : ∀ a < X, ∀ b < Y, cellAt st (a + b * X) = eqCell 1 u0 0) (x' y' : Nat) :
    ∀ a < X, ∀ b < Y,
      cellAt (setEquil st x' y' u0 0 (some 1)) (a + b * X) = eqCell 1 u0 0 := by
  intro a ha b hb
  by_cases hij : a + b * X = x' + y' * st.xdim
  · simp [setEquil, cellAt, hij, Function.update_same]
  · simp only [setEquil, cellAt, Function.update_noteq hij]
    exact h a ha b hb

theorem setBoundaries_uniform (u0 : ℚ) (s : LBMState) {X Y : Nat}
    (hX : s.xdim = X) (hY : s.ydim = Y)
    (h : ∀ a < X, ∀ b < Y, cellAt s (a + b * X) = eqCell 1 u0 0) :
    (setBoundaries u0 s).xdim = X ∧ (setBoundaries u0 s).ydim = Y ∧
    ∀ a < X, ∀ b < Y,
      cellAt (setBoundaries u0 s) (a + b * X) = eqCell 1 u0 0 := by
  subst hX
  subst hY
  have hP : (setBoundaries u0 s).xdim = s.xdim ∧
      (setBoundaries u0 s).ydim = s.ydim ∧
      ∀ a < s.xdim, ∀ b < s.ydim,
        cellAt (setBoundaries u0 s) (a + b * s.xdim) = eqCell 1 u0 0 := by
    simp only [setBoundaries]
    refine foldl_preserves (fun st => st.xdim = s.xdim ∧ st.ydim = s.ydim ∧
      ∀ a < s.xdim, ∀ b < s.ydim, cellAt st (a + b * s.xdim) = eqCell 1 u0 0)
      _ ?_ _ _ (foldl_preserves (fun st => st.xdim = s.xdim ∧
        st.ydim = s.ydim ∧ ∀ a < s.xdim, ∀ b < s.ydim,
        cellAt st (a + b * s.xdim) = eqCell 1 u0 0) _ ?_ _ _ ⟨rfl, rfl, h⟩)
    · intro st a hP
      exact ⟨hP.1, hP.2.1, setEquil_uniform (setEquil_uniform hP.2.2 0 a)
        (s.xdim - 1) a⟩
    · intro st a hP
      exact ⟨hP.1, hP.2.1, setEquil_uniform (setEquil_uniform hP.2.2 a 0) a
        (s.ydim - 1)⟩
  exact hP

/-- C4: starting from a barrier-free uniform equilibrium state at density 1
and velocity `(u0, 0)` (as produced by `initFluid(u0)`), one full step
`setBoundaries(u0); collide(omega); stream()` leaves `rho, ux, uy` at every
interior cell equal to `(1, u0, 0)`, for every omega (exact arithmetic). -/
theorem uniform_equilibrium_one_step (omega u0 : ℚ) (s : LBMState)
    {X Y x y : Nat} (hX : s.xdim = X) (hY : s.ydim = Y)
    (hpops : ∀ a < X, ∀ b < Y, cellAt s (a + b * X) = eqCell 1 u0 0)
    (hbar : ∀ a < X, ∀ b < Y, s.barrier (a + b * X) = false)
    (hx : 1 ≤ x) (hx2 : x < X - 1) (hy : 1 ≤ y) (hy2 : y < Y - 1) :
    (stream (collide omega (setBoundaries u0 s))).rho (x + y * X) = 1 ∧
    (stream (collide omega (setBoundaries u0 s))).ux (x + y * X) = u0 ∧
    (stream (collide omega (setBoundaries u0 s))).uy (x + y * X) = 0 := by
  obtain ⟨hbx, hby, hbu⟩ := setBoundaries_uniform u0 s hX hY hpops
  have hr1 : ∀ t : LBMState, (bouncePass t).rho = t.rho := fun t => by
    rw [bouncePass_eq]
  have hr2 : ∀ t : LBMState, (streamWSW t).rho = t.rho := fun t => by
    rw [streamWSW_eq]
  have hr3 : ∀ t : LBMState, (streamSSE t).rho = t.rho := fun t => by
    rw [streamSSE_eq]
  have hr4 : ∀ t : LBMState, (streamENE t).rho = t.rho := fun t => by
    rw [streamENE_eq]
  have hr5 : ∀ t : LBMState, (streamNNW t).rho = t.rho := fun t => by
    rw [streamNNW_eq]
  have hstream_rho : ∀ t : LBMState, (stream t).rho = t.rho := fun t => by
    simp only [stream, streamSweeps]
    rw [hr1, hr2, hr3, hr4, hr5]
    rfl
  have hu1 : ∀ t : LBMState, (bouncePass t).ux = t.ux := fun t => by
    rw [bouncePass_eq]
  have hu2 : ∀ t : LBMState, (streamWSW t).ux = t.ux := fun t => by
    rw [streamWSW_eq]
  have hu3 : ∀ t : LBMState, (streamSSE t).ux = t.ux := fun t => by
    rw [streamSSE_eq]
  have hu4 : ∀ t : LBMState, (streamENE t).ux = t.ux := fun t => by
    rw [streamENE_eq]
  have hu5 : ∀ t : LBMState, (streamNNW t).ux = t.ux := fun t => by
    rw [streamNNW_eq]
  have hstream_ux : ∀ t : LBMState, (stream t).ux = t.ux := fun t => by
    simp only [stream, streamSweeps]
    rw [hu1, hu2, hu3, hu4, hu5]
    rfl
  have hv1 : ∀ t : LBMState, (bouncePass t).uy = t.uy := fun t => by
    rw [bouncePass_eq]
  have hv2 : ∀ t : LBMState, (streamWSW t).uy = t.uy := fun t => by
    rw [streamWSW_eq]
  have hv3 : ∀ t : LBMState, (streamSSE t).uy = t.uy := fun t => by
    rw [streamSSE_eq]
  have hv4 : ∀ t : LBMState, (streamENE t).uy = t.uy := fun t => by
    rw [streamENE_eq]
  have hv5 : ∀ t : LBMState, (streamNNW t).uy = t.uy := fun t => by
    rw [streamNNW_eq]
  have hstream_uy : ∀ t : LBMState, (stream t).uy = t.uy := fun t => by
    simp only [stream, streamSweeps]
    rw [hv1, hv2, hv3, hv4, hv5]
    rfl
  obtain ⟨hc, hrho, hux, huy⟩ :=
    collide_at omega (setBoundaries u0 s) hbx hby hx hx2 hy hy2
  have hcell : cellAt (setBoundaries u0 s) (x + y * X) = eqCell 1 u0 0 :=
    hbu x (by omega) y (by omega)
  obtain ⟨u1, u2, u3⟩ := collideCellOut_uniform omega u0
  refine ⟨?_, ?_, ?_⟩
  · rw [hstream_rho, hrho, hcell]
    exact u1
  · rw [hstream_ux, hux, hcell]
    exact u2
  · rw [hstream_uy, huy, hcell]
    exact u3

/-- Uniform equilibrium state at density 1 and velocity `(u0, 0)`: the state
`initFluid(u0)` produces (populations, macroscopic fields), used as a concrete
instance for witnesses. -/
def uniformState (X Y : Nat) (u0 : ℚ) : LBMState :=
  { baseState X Y with
    n0 := fun _ => (eqCell 1 u0 0).c0
    nN := fun _ => (eqCell 1 u0 0).cN
    nS := fun _ => (eqCell 1 u0 0).cS
    nE := fun _ => (eqCell 1 u0 0).cE
    nW := fun _ => (eqCell 1 u0 0).cW
    nNE := fun _ => (eqCell 1 u0 0).cNE
    nSE := fun _ => (eqCell 1 u0 0).cSE
    nNW := fun _ => (eqCell 1 u0 0).cNW
    nSW := fun _ => (eqCell 1 u0 0).cSW
    rho := fun _ => 1
    ux := fun _ => u0
    uy := fun _ => 0 }

/-- Witness for C4 on a concrete 5×5 uniform equilibrium state with
`u0 = 1/10`, `omega = 1/2`, at the interior cell (2,2). -/
theorem uniform_equilibrium_one_step_witness :
    ((uniformState 5 5 (1/10)).xdim = 5 ∧ (uniformState 5 5 (1/10)).ydim = 5 ∧
      1 ≤ 2 ∧ 2 < 5 - 1) ∧
    ((stream (collide (1/2) (setBoundaries (1/10)
        (uniformState 5 5 (1/10))))).rho (2 + 2 * 5) = 1 ∧
     (stream (collide (1/2) (setBoundaries (1/10)
        (uniformState 5 5 (1/10))))).ux (2 + 2 * 5) = 1/10 ∧
     (stream (collide (1/2) (setBoundaries (1/10)
        (uniformState 5 5 (1/10))))).uy (2 + 2 * 5) = 0) :=
  ⟨⟨rfl, rfl, by decide, by decide⟩,
    @uniform_equilibrium_one_step (1/2) (1/10) (uniformState 5 5 (1/10)) 5 5 2 2
      rfl rfl (fun _ _ _ _ => rfl) (fun _ _ _ _ => rfl) (by decide) (by decide)
      (by decide) (by decide)⟩

/-- C10: frame property of streaming: `stream()` changes only the eight
directional population arrays and the five barrier accumulators; the rest
array `n0`, the macroscopic fields, the barrier map, the tracers and the
sensor coordinates are untouched. -/
theorem stream_frame (s : LBMState) :
    (stream s).n0 = s.n0 ∧ (stream s).rho = s.rho ∧ (stream s).ux = s.ux ∧
    (stream s).uy = s.uy ∧ (stream s).curl = s.curl ∧
    (stream s).barrier = s.barrier ∧ (stream s).tracerX = s.tracerX ∧
    (stream s).tracerY = s.tracerY ∧ (stream s).sensorX = s.sensorX ∧
    (stream s).sensorY = s.sensorY := by
  have hbn0 : ∀ t : LBMState, (bouncePass t).n0 = t.n0 := fun t => by
    rw [bouncePass_eq]
  have hwn0 : ∀ t : LBMState, (streamWSW t).n0 = t.n0 := fun t => by
    rw [streamWSW_eq]
  have hcn0 : ∀ t : LBMState, (streamSSE t).n0 = t.n0 := fun t => by
    rw [streamSSE_eq]
  have hen0 : ∀ t : LBMState, (streamENE t).n0 = t.n0 := fun t => by
    rw [streamENE_eq]
  have hnn0 : ∀ t : LBMState, (streamNNW t).n0 = t.n0 := fun t => by
    rw [streamNNW_eq]
  have hbrho : ∀ t : LBMState, (bouncePass t).rho = t.rho := fun t => by
    rw [bouncePass_eq]
  have hwrho : ∀ t : LBMState, (streamWSW t).rho = t.rho := fun t => by
    rw [streamWSW_eq]
  have hcrho : ∀ t : LBMState, (streamSSE t).rho = t.rho := fun t => by
    rw [streamSSE_eq]
  have herho : ∀ t : LBMState, (streamENE t).rho = t.rho := fun t => by
    rw [streamENE_eq]
  have hnrho : ∀ t : LBMState, (streamNNW t).rho = t.rho := fun t => by
    rw [streamNNW_eq]
  have hbux : ∀ t : LBMState, (bouncePass t).ux = t.ux := fun t => by
    rw [bouncePass_eq]
  have hwux : ∀ t : LBMState, (streamWSW t).ux = t.ux := fun t => by
    rw [streamWSW_eq]
  have hcux : ∀ t : LBMState, (streamSSE t).ux = t.ux := fun t => by
    rw [streamSSE_eq]
  have heux : ∀ t : LBMState, (streamENE t).ux = t.ux := fun t => by
    rw [streamENE_eq]
  have hnux : ∀ t : LBMState, (streamNNW t).ux = t.ux := fun t => by
    rw [streamNNW_eq]
  have hbuy : ∀ t : LBMState, (bouncePass t).uy = t.uy := fun t => by
    rw [bouncePass_eq]
  have hwuy : ∀ t : LBMState, (streamWSW t).uy = t.uy := fun t => by
    rw [streamWSW_eq]
  have hcuy : ∀ t : LBMState, (streamSSE t).uy = t.uy := fun t => by
    rw [streamSSE_eq]
  have heuy : ∀ t : LBMState, (streamENE t).uy = t.uy := fun t => by
    rw [streamENE_eq]
  have hnuy : ∀ t : LBMState, (streamNNW t).uy = t.uy := fun t => by
    rw [streamNNW_eq]
  have hbcurl : ∀ t : LBMState, (bouncePass t).curl = t.curl := fun t => by
    rw [bouncePass_eq]
  have hwcurl : ∀ t : LBMState, (streamWSW t).curl = t.curl := fun t => by
    rw [streamWSW_eq]
  have hccurl : ∀ t : LBMState, (streamSSE t).curl = t.curl := fun t => by
    rw [streamSSE_eq]
  have hecurl : ∀ t : LBMState, (streamENE t).curl = t.curl := fun t => by
    rw [streamENE_eq]
  have hncurl : ∀ t : LBMState, (streamNNW t).curl = t.curl := fun t => by
    rw [streamNNW_eq]
  have hbbarrier : ∀ t : LBMState, (bouncePass t).barrier = t.barrier := fun t => by
    rw [bouncePass_eq]
  have hwbarrier : ∀ t : LBMState, (streamWSW t).barrier = t.barrier := fun t => by
    rw [streamWSW_eq]
  have hcbarrier : ∀ t : LBMState, (streamSSE t).barrier = t.barrier := fun t => by
    rw [streamSSE_eq]
  have hebarrier : ∀ t : LBMState, (streamENE t).barrier = t.barrier := fun t => by
    rw [streamENE_eq]
  have hnbarrier : ∀ t : LBMState, (streamNNW t).barrier = t.barrier := fun t => by
    rw [streamNNW_eq]
  have hbtracerX : ∀ t : LBMState, (bouncePass t).tracerX = t.tracerX := fun t => by
    rw [bouncePass_eq]
  have hwtracerX : ∀ t : LBMState, (streamWSW t).tracerX = t.tracerX := fun t => by
    rw [streamWSW_eq]
  have hctracerX : ∀ t : LBMState, (streamSSE t).tracerX = t.tracerX := fun t => by
    rw [streamSSE_eq]
  have hetracerX : ∀ t : LBMState, (streamENE t).tracerX = t.tracerX := fun t => by
    rw [streamENE_eq]
  have hntracerX : ∀ t : LBMState, (streamNNW t).tracerX = t.tracerX := fun t => by
    rw [streamNNW_eq]
  have hbtracerY : ∀ t : LBMState, (bouncePass t).tracerY = t.tracerY := fun t => by
    rw [bouncePass_eq]
  have hwtracerY : ∀ t : LBMState, (streamWSW t).tracerY = t.tracerY := fun t => by
    rw [streamWSW_eq]
  have hctracerY : ∀ t : LBMState, (streamSSE t).tracerY = t.tracerY := fun t => by
    rw [streamSSE_eq]
  have hetracerY : ∀ t : LBMState, (streamENE t).tracerY = t.tracerY := fun t => by
    rw [streamENE_eq]
  have hntracerY : ∀ t : LBMState, (streamNNW t).tracerY = t.tracerY := fun t => by
    rw [streamNNW_eq]
  have hbsensorX : ∀ t : LBMState, (bouncePass t).sensorX = t.sensorX := fun t => by
    rw [bouncePass_eq]
  have hwsensorX : ∀ t : LBMState, (streamWSW t).sensorX = t.sensorX := fun t => by
    rw [streamWSW_eq]
  have hcsensorX : ∀ t : LBMState, (streamSSE t).sensorX = t.sensorX := fun t => by
    rw [streamSSE_eq]
  have hesensorX : ∀ t : LBMState, (streamENE t).sensorX = t.sensorX := fun t => by
    rw [streamENE_eq]
  have hnsensorX : ∀ t : LBMState, (streamNNW t).sensorX = t.sensorX := fun t => by
    rw [streamNNW_eq]
  have hbsensorY : ∀ t : LBMState, (bouncePass t).sensorY = t.sensorY := fun t => by
    rw [bouncePass_eq]
  have hwsensorY : ∀ t : LBMState, (streamWSW t).sensorY = t.sensorY := fun t => by
    rw [streamWSW_eq]
  have hcsensorY : ∀ t : LBMState, (streamSSE t).sensorY = t.sensorY := fun t => by
    rw [streamSSE_eq]
  have hesensorY : ∀ t : LBMState, (streamENE t).sensorY = t.sensorY := fun t => by
    rw [streamENE_eq]
  have hnsensorY : ∀ t : LBMState, (streamNNW t).sensorY = t.sensorY := fun t => by
    rw [streamNNW_eq]
  refine ⟨?_, ?_, ?_, ?_, ?_, ?_, ?_, ?_, ?_, ?_⟩
  · simp only [stream, streamSweeps]
    rw [hbn0, hwn0, hcn0, hen0, hnn0]
    rfl
  · simp only [stream, streamSweeps]
    rw [hbrho, hwrho, hcrho, herho, hnrho]
    rfl
  · simp only [stream, streamSweeps]
    rw [hbux, hwux, hcux, heux, hnux]
    rfl
  · simp only [stream, streamSweeps]
    rw [hbuy, hwuy, hcuy, heuy, hnuy]
    rfl
  · simp only [stream, streamSweeps]
    rw [hbcurl, hwcurl, hccurl, hecurl, hncurl]
    rfl
  · simp only [stream, streamSweeps]
    rw [hbbarrier, hwbarrier, hcbarrier, hebarrier, hnbarrier]
    rfl
  · simp only [stream, streamSweeps]
    rw [hbtracerX, hwtracerX, hctracerX, hetracerX, hntracerX]
    rfl
  · simp only [stream, streamSweeps]
    rw [hbtracerY, hwtracerY, hctracerY, hetracerY, hntracerY]
    rfl
  · simp only [stream, streamSweeps]
    rw [hbsensorX, hwsensorX, hcsensorX, hesensorX, hnsensorX]
    rfl
  · simp only [stream, streamSweeps]
    rw [hbsensorY, hwsensorY, hcsensorY, hesensorY, hnsensorY]
    rfl

/-- C8: `addBarrier(x, y)` sets the barrier flag at `x + y*xdim` exactly when
`1 < x < xdim-2` and `1 < y < ydim-2`; for any other coordinates the call is
a silent no-op changing no state at all. -/
theorem addBarrier_guard (s : LBMState) (x y : Nat) :
    ((1 < x ∧ x < s.xdim - 2 ∧ 1 < y ∧ y < s.ydim - 2) →
      addBarrier s x y =
        { s with barrier := Function.update s.barrier (x + y * s.xdim) true }) ∧
    (¬(1 < x ∧ x < s.xdim - 2 ∧ 1 < y ∧ y < s.ydim - 2) →
      addBarrier s x y = s) := by
  constructor
  · intro h
    rw [addBarrier, if_pos h]
  · intro h
    rw [addBarrier, if_neg h]

/-- Witness for C8: on a 6×6 grid, `addBarrier` at the interior cell (2,2)
sets the flag, and at the edge cell (0,0) it changes nothing. -/
theorem addBarrier_guard_witness :
    ((1 < 2 ∧ 2 < (baseState 6 6).xdim - 2 ∧ 1 < 2 ∧ 2 < (baseState 6 6).ydim - 2) ∧
      addBarrier (baseState 6 6) 2 2 =
        { baseState 6 6 with
          barrier := Function.update (baseState 6 6).barrier
            (2 + 2 * (baseState 6 6).xdim) true }) ∧
    (¬(1 < 0 ∧ 0 < (baseState 6 6).xdim - 2 ∧ 1 < 0 ∧ 0 < (baseState 6 6).ydim - 2) ∧
      addBarrier (baseState 6 6) 0 0 = baseState 6 6) :=
  ⟨⟨⟨by decide, by decide, by decide, by decide⟩,
      (addBarrier_guard (baseState 6 6) 2 2).1
        ⟨by decide, by decide, by decide, by decide⟩⟩,
    ⟨by decide, (addBarrier_guard (baseState 6 6) 0 0).2 (by decide)⟩⟩

/-! C6: the East-boundary outflow pass of `collide` runs over rows
`1 .. ydim-3` only (`for y=1; y<ydim-2; y++`), one row short of the claimed
`1 .. ydim-2`; the copy equalities hold for the rows the loop visits and
fail at row `ydim-2`. -/

theorem collideCellOut_zero (c : Cell) : (collideCellOut 0 c).1 = c := by
  simp [collideCellOut]

/-- Amended C6: after `collide(omega)`, for every row `1 ≤ y < ydim-2` the
West-pointing populations at the rightmost column equal those one column
inboard.  (The code's corrective pass stops one row short of the claimed
`y = ydim-2`.) -/
theorem collide_outflow_copy (omega : ℚ) (s : LBMState) {X Y y : Nat}
    (hX : s.xdim = X) (hY : s.ydim = Y) (hXge : 2 ≤ X)
    (hy : 1 ≤ y) (hy2 : y < Y - 2) :
    (collide omega s).nW (X - 1 + y * X) =
      (collide omega s).nW (X - 2 + y * X) ∧
    (collide omega s).nNW (X - 1 + y * X) =
      (collide omega s).nNW (X - 2 + y * X) ∧
    (collide omega s).nSW (X - 1 + y * X) =
      (collide omega s).nSW (X - 2 + y * X) := by
  subst hX
  subst hY
  simp only [collide]
  have hmem : y ∈ List.range' 1 (s.ydim - 3) := by
    rw [List.mem_range'_1]
    omega
  have hnd : ((List.range' 1 (s.ydim - 3)).map
      fun y' => s.xdim - 1 + y' * s.xdim).Nodup := by
    refine (List.nodup_range' ..).map_on ?_
    intro a _ b _ hab
    exact ((idx_inj (by omega) (by omega) hab).2)
  have hpw : ((List.range' 1 (s.ydim - 3)).map
      fun y' => (s.xdim - 1 + y' * s.xdim, s.xdim - 1 + y' * s.xdim - 1)).Pairwise
      (fun a b => b.2 ≠ a.1) := by
    rw [List.pairwise_map]
    refine List.Pairwise.imp_of_mem ?_ (List.pairwise_lt_range' ..)
    intro a b _ _ _ hcontra
    have hb2 : s.xdim - 1 + b * s.xdim - 1 = s.xdim - 2 + b * s.xdim := by
      have : 1 ≤ s.xdim - 1 := by omega
      omega
    rw [hb2] at hcontra
    exact idx_ne (by omega) (by omega) (Or.inl (by omega)) hcontra
  have hcol2 : ∀ y' ∈ List.range' 1 (s.ydim - 3),
      s.xdim - 1 + y' * s.xdim ≠ s.xdim - 2 + y * s.xdim := by
    intro y' _
    exact idx_ne (by omega) (by omega) (Or.inl (by omega))
  have harith : s.xdim - 1 + y * s.xdim - 1 = s.xdim - 2 + y * s.xdim := by
    have : 1 ≤ s.xdim - 1 := by omega
    omega
  have hnm : s.xdim - 2 + y * s.xdim ∉
      (((List.range' 1 (s.ydim - 3)).map fun y' =>
        (s.xdim - 1 + y' * s.xdim, s.xdim - 1 + y' * s.xdim - 1)).map
          Prod.fst) := by
    rw [List.map_map]
    intro hmem'
    obtain ⟨a, ha, hfa⟩ := List.mem_map.mp hmem'
    exact hcol2 a ha hfa
  refine ⟨?_, ?_, ?_⟩
  · rw [foldl_scatter LBMState.nW _ (fun y' => s.xdim - 1 + y' * s.xdim)
      (fun y' => s.xdim - 1 + y' * s.xdim - 1) (fun st a => rfl)]
    rw [scatter_of_mem _ _ _ _ (by rw [List.map_map]; exact hnd) hpw
      (List.mem_map_of_mem _ hmem), harith]
    exact (scatter_of_not_mem _ _ _ hnm).symm
  · rw [foldl_scatter LBMState.nNW _ (fun y' => s.xdim - 1 + y' * s.xdim)
      (fun y' => s.xdim - 1 + y' * s.xdim - 1) (fun st a => rfl)]
    rw [scatter_of_mem _ _ _ _ (by rw [List.map_map]; exact hnd) hpw
      (List.mem_map_of_mem _ hmem), harith]
    exact (scatter_of_not_mem _ _ _ hnm).symm
  · rw [foldl_scatter LBMState.nSW _ (fun y' => s.xdim - 1 + y' * s.xdim)
      (fun y' => s.xdim - 1 + y' * s.xdim - 1) (fun st a => rfl)]
    rw [scatter_of_mem _ _ _ _ (by rw [List.map_map]; exact hnd) hpw
      (List.mem_map_of_mem _ hmem), harith]
    exact (scatter_of_not_mem _ _ _ hnm).symm

/-- Witness for amended C6 on a 5×5 grid at row 1 with omega 1. -/
theorem collide_outflow_copy_witness :
    ((baseState 5 5).xdim = 5 ∧ (baseState 5 5).ydim = 5 ∧ 2 ≤ 5 ∧
      1 ≤ 1 ∧ 1 < 5 - 2) ∧
    ((collide 1 (baseState 5 5)).nW (5 - 1 + 1 * 5) =
      (collide 1 (baseState 5 5)).nW (5 - 2 + 1 * 5) ∧
    (collide 1 (baseState 5 5)).nNW (5 - 1 + 1 * 5) =
      (collide 1 (baseState 5 5)).nNW (5 - 2 + 1 * 5) ∧
    (collide 1 (baseState 5 5)).nSW (5 - 1 + 1 * 5) =
      (collide 1 (baseState 5 5)).nSW (5 - 2 + 1 * 5)) :=
  ⟨⟨rfl, rfl, by decide, le_refl 1, by decide⟩,
    @collide_outflow_copy 1 (baseState 5 5) 5 5 1 rfl rfl (by decide)
      (le_refl 1) (by decide)⟩

/-- State used in the C6 counterexample: a 4×4 grid whose `nW` array holds
the cell index, so the two columns differ everywhere. -/
def cs6 : LBMState := { baseState 4 4 with nW := fun i => (i : ℚ) }

/-- Counterexample to C6 as stated: on a 4×4 grid the claimed range includes
row `y = ydim - 2 = 2`, but after `collide(0)` the West populations at the
rightmost column of that row are NOT copied from one cell inboard. -/
theorem collide_outflow_copy_counterexample :
    (cs6.xdim = 4 ∧ cs6.ydim = 4 ∧ 1 ≤ 2 ∧ 2 ≤ cs6.ydim - 2) ∧
    (collide 0 cs6).nW (4 - 1 + 2 * 4) ≠ (collide 0 cs6).nW (4 - 2 + 2 * 4) := by
  refine ⟨⟨rfl, rfl, by decide, by decide⟩, ?_⟩
  simp only [collide]
  have hnot11 : ∀ p ∈ cellsIn (ysAsc cs6.ydim) (xsAsc cs6.xdim),
      p.1 + p.2 * cs6.xdim ≠ 4 - 1 + 2 * 4 := by decide
  have heast11 : ∀ y' ∈ List.range' 1 (cs6.ydim - 3),
      cs6.xdim - 1 + y' * cs6.xdim ≠ 4 - 1 + 2 * 4 := by decide
  have heast10 : ∀ y' ∈ List.range' 1 (cs6.ydim - 3),
      cs6.xdim - 1 + y' * cs6.xdim ≠ 4 - 2 + 2 * 4 := by decide
  obtain ⟨c1, -, -, -⟩ := collidePass_not_mem 0 cs6.xdim
    (cellsIn (ysAsc cs6.ydim) (xsAsc cs6.xdim)) cs6 (4 - 1 + 2 * 4) hnot11
  obtain ⟨e1, -, -⟩ := eastFold_not_mem cs6.xdim (List.range' 1 (cs6.ydim - 3))
    ((cellsIn (ysAsc cs6.ydim) (xsAsc cs6.xdim)).foldl
      (fun st p => collideCell 0 st (p.1 + p.2 * cs6.xdim)) cs6)
    (4 - 1 + 2 * 4) heast11
  obtain ⟨e1', -, -⟩ := eastFold_not_mem cs6.xdim (List.range' 1 (cs6.ydim - 3))
    ((cellsIn (ysAsc cs6.ydim) (xsAsc cs6.xdim)).foldl
      (fun st p => collideCell 0 st (p.1 + p.2 * cs6.xdim)) cs6)
    (4 - 2 + 2 * 4) heast10
  obtain ⟨m1, -, -, -⟩ := collidePass_mem 0 cs6.xdim
    (cellsIn (ysAsc cs6.ydim) (xsAsc cs6.xdim)) cs6
    (by
      refine nodup_idx_map (nodup_cellsIn nodup_ysAsc nodup_xsAsc) ?_
      intro p hp
      have := mem_xsAsc.mp (mem_cellsIn.mp hp).1
      omega)
    (2, 2) (by decide)
  have c1w : ((cellsIn (ysAsc cs6.ydim) (xsAsc cs6.xdim)).foldl
      (fun st p => collideCell 0 st (p.1 + p.2 * cs6.xdim)) cs6).nW
        (4 - 1 + 2 * 4) = cs6.nW (4 - 1 + 2 * 4) := congrArg Cell.cW c1
  have m1w : ((cellsIn (ysAsc cs6.ydim) (xsAsc cs6.xdim)).foldl
      (fun st p => collideCell 0 st (p.1 + p.2 * cs6.xdim)) cs6).nW
        (2 + 2 * cs6.xdim) =
      (collideCellOut 0 (cellAt cs6 (2 + 2 * cs6.xdim))).1.cW :=
    congrArg Cell.cW m1
  rw [collideCellOut_zero] at m1w
  have hidx : (2 : Nat) + 2 * cs6.xdim = 4 - 2 + 2 * 4 := by decide
  rw [e1, e1', c1w, ← hidx, m1w]
  norm_num [cs6, baseState, cellAt]

/-! C9: the `pushFluid` guard and write pattern.  The code's guard is
`pushX > 3 && pushX < xdim-1-3 && ...`, i.e. strictly more than 3 cells from
every edge; a point exactly 3 cells from an edge is silently ignored. -/

theorem setEquil_ne (st : LBMState) (a b : Nat) (vx vy : ℚ) (r? : Option ℚ)
    (i : Nat) (h : i ≠ a + b * st.xdim) :
    cellAt (setEquil st a b vx vy r?) i = cellAt st i ∧
    (setEquil st a b vx vy r?).rho i = st.rho i ∧
    (setEquil st a b vx vy r?).ux i = st.ux i ∧
    (setEquil st a b vx vy r?).uy i = st.uy i := by
  refine ⟨?_, ?_, ?_, ?_⟩ <;>
    simp [setEquil, cellAt, Function.update_noteq h]

theorem pushFold_not_mem (vx vy : ℚ) (X : Nat) (l : List (Nat × Nat)) :
    ∀ (st : LBMState), st.xdim = X → ∀ i, (∀ p ∈ l, p.1 + p.2 * X ≠ i) →
      cellAt (l.foldl (fun st p => setEquil st p.1 p.2 vx vy none) st) i =
          cellAt st i ∧
      (l.foldl (fun st p => setEquil st p.1 p.2 vx vy none) st).rho i =
          st.rho i ∧
      (l.foldl (fun st p => setEquil st p.1 p.2 vx vy none) st).ux i =
          st.ux i ∧
      (l.foldl (fun st p => setEquil st p.1 p.2 vx vy none) st).uy i =
          st.uy i := by
  induction l with
  | nil => intro st _ i _; exact ⟨rfl, rfl, rfl, rfl⟩
  | cons q l ih =>
    intro st hdim i h
    rw [List.foldl_cons]
    have hq : i ≠ q.1 + q.2 * st.xdim := by
      rw [hdim]
      exact (h q (List.mem_cons_self ..)).symm
    obtain ⟨c1, c2, c3, c4⟩ := setEquil_ne st q.1 q.2 vx vy none i hq
    obtain ⟨f1, f2, f3, f4⟩ := ih (setEquil st q.1 q.2 vx vy none) hdim i
      (fun p hp => h p (List.mem_cons_of_mem _ hp))
    exact ⟨f1.trans c1, f2.trans c2, f3.trans c3, f4.trans c4⟩

theorem setEquil_self_none (st : LBMState) (a b : Nat) (vx vy : ℚ) :
    cellAt (setEquil st a b vx vy none) (a + b * st.xdim) =
        eqCell (st.rho (a + b * st.xdim)) vx vy ∧
    (setEquil st a b vx vy none).rho (a + b * st.xdim) =
        st.rho (a + b * st.xdim) ∧
    (setEquil st a b vx vy none).ux (a + b * st.xdim) = vx ∧
    (setEquil st a b vx vy none).uy (a + b * st.xdim) = vy := by
  refine ⟨?_, ?_, ?_, ?_⟩ <;>
    simp [setEquil, cellAt, Function.update_same]

theorem pushFold_at (vx vy : ℚ) (X : Nat) (l : List (Nat × Nat)) :
    ∀ (s0 st : LBMState), st.xdim = X → (∀ j, st.rho j = s0.rho j) →
      ∀ i, (∃ p ∈ l, p.1 + p.2 * X = i) →
      cellAt (l.foldl (fun st p => setEquil st p.1 p.2 vx vy none) st) i =
          eqCell (s0.rho i) vx vy ∧
      (l.foldl (fun st p => setEquil st p.1 p.2 vx vy none) st).rho i =
          s0.rho i ∧
      (l.foldl (fun st p => setEquil st p.1 p.2 vx vy none) st).ux i = vx ∧
      (l.foldl (fun st p => setEquil st p.1 p.2 vx vy none) st).uy i = vy := by
  induction l with
  | nil =>
    intro s0 st _ _ i hex
    obtain ⟨p, hp, -⟩ := hex
    cases hp
  | cons q l ih =>
    intro s0 st hdim hrho i hex
    rw [List.foldl_cons]
    have hdim' : (setEquil st q.1 q.2 vx vy none).xdim = X := hdim
    have hrho' : ∀ j, (setEquil st q.1 q.2 vx vy none).rho j = s0.rho j := by
      intro j
      by_cases hj : j = q.1 + q.2 * st.xdim
      · subst hj
        simp only [setEquil, Option.getD]
        rw [Function.update_same]
        exact hrho _
      · simp only [setEquil]
        rw [Function.update_noteq hj]
        exact hrho j
    by_cases hrest : ∃ p ∈ l, p.1 + p.2 * X = i
    · exact ih s0 _ hdim' hrho' i hrest
    · obtain ⟨p, hp, hpi⟩ := hex
      rcases List.mem_cons.mp hp with heq | hpr
      · subst heq
        have hnot : ∀ r ∈ l, r.1 + r.2 * X ≠ i := by
          intro r hr hcontra
          exact hrest ⟨r, hr, hcontra⟩
        obtain ⟨f1, f2, f3, f4⟩ := pushFold_not_mem vx vy X l
          (setEquil st p.1 p.2 vx vy none) hdim' i hnot
        have hi : i = p.1 + p.2 * st.xdim := by rw [← hpi, hdim]
        subst hi
        obtain ⟨g1, g2, g3, g4⟩ := setEquil_self_none st p.1 p.2 vx vy
        refine ⟨f1.trans (g1.trans ?_), f2.trans (g2.trans (hrho _)),
          f3.trans g3, f4.trans g4⟩
        rw [hrho]
      · exact absurd ⟨p, hpr, hpi⟩ hrest

theorem pushFold_eq (vx vy : ℚ) (l : List (Nat × Nat)) (s : LBMState) :
    l.foldl (fun st p => setEquil st p.1 p.2 vx vy none) s =
      { s with
        n0 := (l.foldl (fun st p => setEquil st p.1 p.2 vx vy none) s).n0
        nN := (l.foldl (fun st p => setEquil st p.1 p.2 vx vy none) s).nN
        nS := (l.foldl (fun st p => setEquil st p.1 p.2 vx vy none) s).nS
        nE := (l.foldl (fun st p => setEquil st p.1 p.2 vx vy none) s).nE
        nW := (l.foldl (fun st p => setEquil st p.1 p.2 vx vy none) s).nW
        nNE := (l.foldl (fun st p => setEquil st p.1 p.2 vx vy none) s).nNE
        nSE := (l.foldl (fun st p => setEquil st p.1 p.2 vx vy none) s).nSE
        nNW := (l.foldl (fun st p => setEquil st p.1 p.2 vx vy none) s).nNW
        nSW := (l.foldl (fun st p => setEquil st p.1 p.2 vx vy none) s).nSW
        rho := (l.foldl (fun st p => setEquil st p.1 p.2 vx vy none) s).rho
        ux := (l.foldl (fun st p => setEquil st p.1 p.2 vx vy none) s).ux
        uy := (l.foldl (fun st p => setEquil st p.1 p.2 vx vy none) s).uy } := by
  apply LBMState.ext <;> first | rfl | (apply foldl_frame; intro st p; rfl)

theorem mem_pushTargets_bounds {x y : Nat} {p : Nat × Nat} (hx : 3 < x)
    (hy : 3 < y) (hp : p ∈ pushTargets x y) :
    x - 2 ≤ p.1 ∧ p.1 ≤ x + 2 ∧ y - 2 ≤ p.2 ∧ p.2 ≤ y + 2 := by
  simp only [pushTargets, List.mem_append, List.mem_flatMap, List.mem_range,
    List.mem_map, List.mem_cons, List.not_mem_nil, or_false] at hp
  rcases hp with ⟨k, hk, hpe | hpe⟩ | ⟨k, hk, j, hj, hpe⟩ <;>
    (subst hpe; refine ⟨?_, ?_, ?_, ?_⟩ <;> simp <;> omega)

/-- Amended C9: for `(x,y)` strictly MORE than 3 cells from every grid edge
(`3 < x < xdim-4`, `3 < y < ydim-4`), `pushFluid(x, y, ux, uy)` overwrites
exactly the cross cells `(x±1|x, y±2)` and the 5×3 block around `(x,y)` with
equilibrium distributions at velocity `(ux, uy)` (density read from each
cell), leaving every other cell and every other field unchanged; for any
point not strictly inside that margin — in particular a point exactly 3
cells from an edge — the call is a silent no-op. -/
theorem pushFluid_guard (s : LBMState) (pushX pushY : Nat) (vx vy : ℚ)
    {X Y : Nat} (hX : s.xdim = X) (hY : s.ydim = Y) :
    ((3 < pushX ∧ pushX < X - 1 - 3 ∧ 3 < pushY ∧ pushY < Y - 1 - 3) →
      (∀ p ∈ pushTargets pushX pushY,
        cellAt (pushFluid s pushX pushY vx vy) (p.1 + p.2 * X) =
          eqCell (s.rho (p.1 + p.2 * X)) vx vy ∧
        (pushFluid s pushX pushY vx vy).rho (p.1 + p.2 * X) =
          s.rho (p.1 + p.2 * X) ∧
        (pushFluid s pushX pushY vx vy).ux (p.1 + p.2 * X) = vx ∧
        (pushFluid s pushX pushY vx vy).uy (p.1 + p.2 * X) = vy) ∧
      (∀ a b : Nat, a < X → b < Y → (a, b) ∉ pushTargets pushX pushY →
        cellAt (pushFluid s pushX pushY vx vy) (a + b * X) =
          cellAt s (a + b * X) ∧
        (pushFluid s pushX pushY vx vy).rho (a + b * X) = s.rho (a + b * X) ∧
        (pushFluid s pushX pushY vx vy).ux (a + b * X) = s.ux (a + b * X) ∧
        (pushFluid s pushX pushY vx vy).uy (a + b * X) = s.uy (a + b * X)) ∧
      ((pushFluid s pushX pushY vx vy).curl = s.curl ∧
       (pushFluid s pushX pushY vx vy).barrier = s.barrier ∧
       (pushFluid s pushX pushY vx vy).barrierCount = s.barrierCount ∧
       (pushFluid s pushX pushY vx vy).barrierFx = s.barrierFx ∧
       (pushFluid s pushX pushY vx vy).barrierFy = s.barrierFy ∧
       (pushFluid s pushX pushY vx vy).tracerX = s.tracerX ∧
       (pushFluid s pushX pushY vx vy).tracerY = s.tracerY ∧
       (pushFluid s pushX pushY vx vy).sensorX = s.sensorX ∧
       (pushFluid s pushX pushY vx vy).sensorY = s.sensorY)) ∧
    (¬(3 < pushX ∧ pushX < X - 1 - 3 ∧ 3 < pushY ∧ pushY < Y - 1 - 3) →
      pushFluid s pushX pushY vx vy = s) := by
  subst hX
  subst hY
  constructor
  · intro hg
    have hpush : pushFluid s pushX pushY vx vy =
        (pushTargets pushX pushY).foldl
          (fun st p => setEquil st p.1 p.2 vx vy none) s := by
      simp only [pushFluid]
      rw [if_pos ⟨hg.1, hg.2.1, hg.2.2.1, hg.2.2.2⟩]
    refine ⟨?_, ?_, ?_⟩
    · intro p hp
      rw [hpush]
      exact pushFold_at vx vy s.xdim (pushTargets pushX pushY) s s rfl
        (fun _ => rfl) (p.1 + p.2 * s.xdim) ⟨p, hp, rfl⟩
    · intro a b ha hb hnot
      rw [hpush]
      refine pushFold_not_mem vx vy s.xdim (pushTargets pushX pushY) s rfl
        (a + b * s.xdim) ?_
      intro q hq hcontra
      obtain ⟨hb1, hb2, hb3, hb4⟩ := mem_pushTargets_bounds hg.1 hg.2.2.1 hq
      obtain ⟨hqa, hqb⟩ := idx_inj (X := s.xdim) (by omega) ha hcontra
      exact hnot (by rw [← hqa, ← hqb]; exact hq)
    · rw [hpush]
      refine ⟨?_, ?_, ?_, ?_, ?_, ?_, ?_, ?_, ?_⟩ <;> rw [pushFold_eq]
  · intro hg
    simp only [pushFluid]
    rw [if_neg]
    intro hc
    exact hg ⟨hc.1, hc.2.1, hc.2.2.1, hc.2.2.2⟩

/-- Witness for amended C9: on a 12×12 grid, pushing at (2,6) (only 2 cells
from the left edge) is a no-op, and pushing at (5,6) writes velocity 1 at the
center cell. -/
theorem pushFluid_guard_witness :
    (¬(3 < 2 ∧ 2 < 12 - 1 - 3 ∧ 3 < 6 ∧ 6 < 12 - 1 - 3) ∧
      pushFluid (baseState 12 12) 2 6 1 0 = baseState 12 12) ∧
    ((3 < 5 ∧ 5 < 12 - 1 - 3 ∧ 3 < 6 ∧ 6 < 12 - 1 - 3) ∧
      (5, 6) ∈ pushTargets 5 6 ∧
      (pushFluid (baseState 12 12) 5 6 1 0).ux ((5, 6).1 + (5, 6).2 * 12) = 1) :=
  ⟨⟨by decide,
      (@pushFluid_guard (baseState 12 12) 2 6 1 0 12 12 rfl rfl).2 (by decide)⟩,
    ⟨by decide, by decide,
      (((@pushFluid_guard (baseState 12 12) 5 6 1 0 12 12 rfl rfl).1
        (by decide)).1 (5, 6) (by decide)).2.2.1⟩⟩

/-- State used in the C9 counterexample: nonzero density everywhere, so the
claimed equilibrium write at the centre cell would change `nE`. -/
def cs9 : LBMState := { baseState 12 12 with rho := fun _ => 1 }

/-- Counterexample to C9 as stated: the point (3,6) on a 12×12 grid is at
least 3 cells from every edge (distance 3 from the left one), yet
`pushFluid(3, 6, 1, 0)` changes no state at all — in particular the centre
cell does not receive the equilibrium population the claim promises. -/
theorem pushFluid_guard_counterexample :
    (3 ≤ 3 ∧ 3 + 3 ≤ 12 - 1 ∧ 3 ≤ 6 ∧ 6 + 3 ≤ 12 - 1) ∧
    pushFluid cs9 3 6 1 0 = cs9 ∧
    cs9.nE (3 + 6 * 12) ≠ (eqCell (cs9.rho (3 + 6 * 12)) 1 0).cE := by
  refine ⟨by decide, ?_, ?_⟩
  · simp only [pushFluid]
    rw [if_neg]
    intro hc
    exact absurd hc.1 (by decide)
  · norm_num [cs9, baseState, eqCell, one9th]

/-! C7: bounce-back destination.  The code sends the West-slot population of
a barrier cell (the value that arrived from the East) to the EAST neighbour's
East slot (`nE[x+1] = W`), not to the West neighbour as the claim states. -/

theorem bounceCell_barrier_eq (X : Nat) (st : LBMState) (p : Nat × Nat) :
    (bounceCell X st p).barrier = st.barrier := by
  simp only [bounceCell]
  split <;> rfl

theorem bounceCell_not (X : Nat) (st : LBMState) (p : Nat × Nat)
    (h : st.barrier (p.1 + p.2 * X) = false) : bounceCell X st p = st := by
  simp only [bounceCell]
  rw [if_neg]
  simp [h]

theorem bounceCell_nE_true (X : Nat) (st : LBMState) (p : Nat × Nat)
    (h : st.barrier (p.1 + p.2 * X) = true) :
    (bounceCell X st p).nE =
      Function.update st.nE (p.1 + 1 + p.2 * X) (st.nW (p.1 + p.2 * X)) := by
  simp only [bounceCell]
  rw [if_pos h]

theorem bounceCell_nW_true (X : Nat) (st : LBMState) (p : Nat × Nat)
    (h : st.barrier (p.1 + p.2 * X) = true) :
    (bounceCell X st p).nW =
      Function.update st.nW (p.1 - 1 + p.2 * X) (st.nE (p.1 + p.2 * X)) := by
  simp only [bounceCell]
  rw [if_pos h]

theorem bounceFold_nE_not (X : Nat) (l : List (Nat × Nat)) :
    ∀ (st : LBMState) (j : Nat),
      (∀ p ∈ l, st.barrier (p.1 + p.2 * X) = true → p.1 + 1 + p.2 * X ≠ j) →
      (l.foldl (fun st p => bounceCell X st p) st).nE j = st.nE j := by
  induction l with
  | nil => intro st j _; rfl
  | cons q l ih =>
    intro st j h
    rw [List.foldl_cons]
    have hstep : (bounceCell X st q).nE j = st.nE j := by
      rcases hb : st.barrier (q.1 + q.2 * X) with hf | ht
      · rw [bounceCell_not X st q hb]
      · rw [bounceCell_nE_true X st q hb,
          Function.update_noteq (h q (List.mem_cons_self ..) hb).symm]
    rw [ih (bounceCell X st q) j ?_, hstep]
    intro p hp hbp
    refine h p (List.mem_cons_of_mem _ hp) ?_
    rw [← hbp, bounceCell_barrier_eq]

theorem bounceFold_nE (X : Nat) (l : List (Nat × Nat)) :
    ∀ (st : LBMState) (x y : Nat), (x, y) ∈ l → l.Nodup →
      (∀ p ∈ l, 1 ≤ p.1 ∧ p.1 < X - 1) → x < X - 1 →
      st.barrier (x + y * X) = true →
      st.barrier (x + 1 + y * X) = false →
      (l.foldl (fun st p => bounceCell X st p) st).nE (x + 1 + y * X) =
        st.nW (x + y * X) := by
  induction l with
  | nil => intro st x y hmem; cases hmem
  | cons q l ih =>
    intro st x y hmem hnd hran hx hbar hbE
    rw [List.foldl_cons]
    rcases List.mem_cons.mp hmem with heq | hmem'
    · cases heq
      rw [bounceFold_nE_not X l (bounceCell X st (x, y)) _ ?_]
      · rw [bounceCell_nE_true X st (x, y) hbar, Function.update_same]
      · intro p hp hbp hcontra
        rw [bounceCell_barrier_eq] at hbp
        obtain ⟨h1, h2⟩ := idx_inj (X := X)
          (by have := hran p (List.mem_cons_of_mem _ hp); omega) (by omega)
          hcontra
        have hpxy : p = (x, y) := Prod.ext (by omega) h2
        rw [hpxy] at hp
        exact (List.nodup_cons.mp hnd).1 hp
    · have hqx := hran q (List.mem_cons_self ..)
      have hxv : x < X - 1 := hx
      have hbar' : (bounceCell X st q).barrier (x + y * X) = true := by
        rw [bounceCell_barrier_eq]; exact hbar
      have hbE' : (bounceCell X st q).barrier (x + 1 + y * X) = false := by
        rw [bounceCell_barrier_eq]; exact hbE
      have hnW : (bounceCell X st q).nW (x + y * X) = st.nW (x + y * X) := by
        rcases hb : st.barrier (q.1 + q.2 * X) with hf | ht
        · rw [bounceCell_not X st q hb]
        · rw [bounceCell_nW_true X st q hb]
          refine Function.update_noteq ?_ _ _
          intro hcontra
          obtain ⟨h1, h2⟩ := idx_inj (X := X) (by omega) (by omega) hcontra.symm
          have hq1 : q.1 = x + 1 := by omega
          have : st.barrier (q.1 + q.2 * X) = false := by
            rw [hq1, h2]
            exact hbE
          rw [this] at hb
          cases hb
      rw [ih (bounceCell X st q) x y hmem' (List.nodup_cons.mp hnd).2
        (fun p hp => hran p (List.mem_cons_of_mem _ hp)) hxv hbar' hbE', hnW]

/-- Amended C7: after `stream()`, for a barrier cell `(x,y)` strictly inside
the grid whose eight neighbours are all fluid, the post-streaming West-slot
population captured at the barrier cell (the value that arrived from the
East) is found in the East slot `nE` of the EAST neighbour `(x+1, y)` — not
of the West neighbour as the claim states. -/
theorem bounce_back_destination (s : LBMState) {X Y x y : Nat}
    (hX : s.xdim = X) (hY : s.ydim = Y)
    (hx : 1 ≤ x) (hx2 : x < X - 1) (hy : 1 ≤ y) (hy2 : y < Y - 1)
    (hbar : s.barrier (x + y * X) = true)
    (hfE : s.barrier (x + 1 + y * X) = false)
    (hfW : s.barrier (x - 1 + y * X) = false)
    (hfN : s.barrier (x + (y + 1) * X) = false)
    (hfS : s.barrier (x + (y - 1) * X) = false)
    (hfNE : s.barrier (x + 1 + (y + 1) * X) = false)
    (hfNW : s.barrier (x - 1 + (y + 1) * X) = false)
    (hfSE : s.barrier (x + 1 + (y - 1) * X) = false)
    (hfSW : s.barrier (x - 1 + (y - 1) * X) = false) :
    (stream s).nE (x + 1 + y * X) =
      (streamSweeps (resetAcc s)).nW (x + y * X) := by
  subst hX
  subst hY
  have hbarT : (streamSweeps (resetAcc s)).barrier = s.barrier := by
    simp only [streamSweeps]
    rw [streamWSW_eq, streamSSE_eq, streamENE_eq, streamNNW_eq]
    rfl
  have htx : (streamSweeps (resetAcc s)).xdim = s.xdim := by
    simp only [streamSweeps]
    rw [streamWSW_eq, streamSSE_eq, streamENE_eq, streamNNW_eq]
    rfl
  have hty : (streamSweeps (resetAcc s)).ydim = s.ydim := by
    simp only [streamSweeps]
    rw [streamWSW_eq, streamSSE_eq, streamENE_eq, streamNNW_eq]
    rfl
  simp only [stream, bouncePass]
  rw [htx, hty]
  refine bounceFold_nE s.xdim (cellsIn (ysAsc s.ydim) (xsAsc s.xdim))
    (streamSweeps (resetAcc s)) x y
    (mem_cellsIn.mpr ⟨mem_xsAsc.mpr ⟨hx, hx2⟩, mem_ysAsc.mpr ⟨hy, hy2⟩⟩)
    (nodup_cellsIn nodup_ysAsc nodup_xsAsc) ?_ hx2 ?_ ?_
  · intro p hp
    have := mem_xsAsc.mp (mem_cellsIn.mp hp).1
    omega
  · rw [hbarT]
    exact hbar
  · rw [hbarT]
    exact hfE

/-- State used for C7: a 5×5 grid with a single barrier at cell (2,2)
(index 12), all its neighbours fluid, and distinguishable `nW`/`nE` arrays. -/
def cs7 : LBMState :=
  { baseState 5 5 with
    barrier := fun i => i == 12
    nW := fun i => (i : ℚ)
    nE := fun i => 100 + (i : ℚ) }

/-- Witness for amended C7 at the barrier cell (2,2) of `cs7`. -/
theorem bounce_back_destination_witness :
    (cs7.barrier (2 + 2 * 5) = true ∧ cs7.barrier (2 + 1 + 2 * 5) = false ∧
      1 ≤ 2 ∧ 2 < 5 - 1) ∧
    (stream cs7).nE (2 + 1 + 2 * 5) =
      (streamSweeps (resetAcc cs7)).nW (2 + 2 * 5) :=
  ⟨⟨by decide, by decide, by decide, by decide⟩,
    @bounce_back_destination cs7 5 5 2 2 rfl rfl (by decide) (by decide)
      (by decide) (by decide) (by decide) (by decide) (by decide) (by decide)
      (by decide) (by decide) (by decide) (by decide) (by decide)⟩

/-- Counterexample to C7 as stated: for the isolated interior barrier cell
(2,2) of `cs7`, the post-streaming West-slot value is NOT found in the East
slot of the West neighbour `(1,2)` — the code puts it in the East
neighbour's East slot instead. -/
theorem bounce_back_destination_counterexample :
    (cs7.barrier (2 + 2 * 5) = true ∧
     cs7.barrier (2 + 1 + 2 * 5) = false ∧ cs7.barrier (2 - 1 + 2 * 5) = false ∧
     cs7.barrier (2 + (2 + 1) * 5) = false ∧
     cs7.barrier (2 + (2 - 1) * 5) = false ∧
     cs7.barrier (2 + 1 + (2 + 1) * 5) = false ∧
     cs7.barrier (2 - 1 + (2 + 1) * 5) = false ∧
     cs7.barrier (2 + 1 + (2 - 1) * 5) = false ∧
     cs7.barrier (2 - 1 + (2 - 1) * 5) = false ∧
     1 ≤ 2 ∧ 2 < cs7.xdim - 1 ∧ 2 < cs7.ydim - 1) ∧
    (stream cs7).nE (2 - 1 + 2 * 5) ≠
      (streamSweeps (resetAcc cs7)).nW (2 + 2 * 5) := by
  refine ⟨by decide, ?_⟩
  have hbarT : (streamSweeps (resetAcc cs7)).barrier = cs7.barrier := by
    simp only [streamSweeps]
    rw [streamWSW_eq, streamSSE_eq, streamENE_eq, streamNNW_eq]
    rfl
  have htx : (streamSweeps (resetAcc cs7)).xdim = 5 := by
    simp only [streamSweeps]
    rw [streamWSW_eq, streamSSE_eq, streamENE_eq, streamNNW_eq]
    rfl
  have hty : (streamSweeps (resetAcc cs7)).ydim = 5 := by
    simp only [streamSweeps]
    rw [streamWSW_eq, streamSSE_eq, streamENE_eq, streamNNW_eq]
    rfl
  have h1x : (streamNNW (resetAcc cs7)).xdim = 5 := by
    rw [streamNNW_eq]
    rfl
  have h1y : (streamNNW (resetAcc cs7)).ydim = 5 := by
    rw [streamNNW_eq]
    rfl
  have h2x : (streamENE (streamNNW (resetAcc cs7))).xdim = 5 := by
    rw [streamENE_eq]
    exact h1x
  have h2y : (streamENE (streamNNW (resetAcc cs7))).ydim = 5 := by
    rw [streamENE_eq]
    exact h1y
  have h3x : (streamSSE (streamENE (streamNNW (resetAcc cs7)))).xdim = 5 := by
    rw [streamSSE_eq]
    exact h2x
  have h3y : (streamSSE (streamENE (streamNNW (resetAcc cs7)))).ydim = 5 := by
    rw [streamSSE_eq]
    exact h2y
  have wE : ∀ t : LBMState, (streamWSW t).nE = t.nE := fun t => by
    rw [streamWSW_eq]
  have sE : ∀ t : LBMState, (streamSSE t).nE = t.nE := fun t => by
    rw [streamSSE_eq]
  have nE2 : ∀ t : LBMState, (streamNNW t).nE = t.nE := fun t => by
    rw [streamNNW_eq]
  have sW : ∀ t : LBMState, (streamSSE t).nW = t.nW := fun t => by
    rw [streamSSE_eq]
  have eW : ∀ t : LBMState, (streamENE t).nW = t.nW := fun t => by
    rw [streamENE_eq]
  have nW2 : ∀ t : LBMState, (streamNNW t).nW = t.nW := fun t => by
    rw [streamNNW_eq]
  have hcond : ∀ p ∈ cellsIn (ysAsc 5) (xsAsc 5),
      (streamSweeps (resetAcc cs7)).barrier (p.1 + p.2 * 5) = true →
      p.1 + 1 + p.2 * 5 ≠ 1 + 2 * 5 := by
    rw [hbarT]
    decide
  show (stream cs7).nE (1 + 2 * 5) ≠ (streamSweeps (resetAcc cs7)).nW (2 + 2 * 5)
  simp only [stream, bouncePass]
  rw [htx, hty]
  rw [bounceFold_nE_not 5 (cellsIn (ysAsc 5) (xsAsc 5))
    (streamSweeps (resetAcc cs7)) (1 + 2 * 5) hcond]
  simp only [streamSweeps]
  rw [wE, sE, streamENE_nE_at _ h1x h1y (by decide) (by decide) (by decide)
    (by decide), nE2]
  rw [streamWSW_nW_at _ h3x h3y (by decide) (by decide) (by decide) (by decide),
    sW, eW, nW2]
  show cs7.nE (1 - 1 + 2 * 5) ≠ cs7.nW (2 + 1 + 2 * 5)
  norm_num [cs7, baseState]

/-! C5: the barrier accumulators recomputed by `stream()`. -/

/-- Interior cells whose barrier flag is set, in bounce-back scan order. -/
def barrierCells (s : LBMState) : List (Nat × Nat) :=
  (cellsIn (ysAsc s.ydim) (xsAsc s.xdim)).filter
    (fun p => s.barrier (p.1 + p.2 * s.xdim))

/-- Net x-momentum flux `(E+NE+SE) − (W+NW+SW)` of the populations of state
`t` sitting at cell `p`. -/
def forceX (t : LBMState) (X : Nat) (p : Nat × Nat) : ℚ :=
  t.nE (p.1 + p.2 * X) + t.nNE (p.1 + p.2 * X) + t.nSE (p.1 + p.2 * X) -
    t.nW (p.1 + p.2 * X) - t.nNW (p.1 + p.2 * X) - t.nSW (p.1 + p.2 * X)

/-- Net y-momentum flux `(N+NE+NW) − (S+SE+SW)` of the populations of state
`t` sitting at cell `p`. -/
def forceY (t : LBMState) (X : Nat) (p : Nat × Nat) : ℚ :=
  t.nN (p.1 + p.2 * X) + t.nNE (p.1 + p.2 * X) + t.nNW (p.1 + p.2 * X) -
    t.nS (p.1 + p.2 * X) - t.nSE (p.1 + p.2 * X) - t.nSW (p.1 + p.2 * X)

theorem bounceCell_count_true (X : Nat) (st : LBMState) (p : Nat × Nat)
    (h : st.barrier (p.1 + p.2 * X) = true) :
    (bounceCell X st p).barrierCount = st.barrierCount + 1 := by
  simp only [bounceCell]
  rw [if_pos h]

theorem bounceCell_xSum_true (X : Nat) (st : LBMState) (p : Nat × Nat)
    (h : st.barrier (p.1 + p.2 * X) = true) :
    (bounceCell X st p).barrierxSum = st.barrierxSum + p.1 := by
  simp only [bounceCell]
  rw [if_pos h]

theorem bounceCell_ySum_true (X : Nat) (st : LBMState) (p : Nat × Nat)
    (h : st.barrier (p.1 + p.2 * X) = true) :
    (bounceCell X st p).barrierySum = st.barrierySum + p.2 := by
  simp only [bounceCell]
  rw [if_pos h]

theorem bounceCell_Fx_true (X : Nat) (st : LBMState) (p : Nat × Nat)
    (h : st.barrier (p.1 + p.2 * X) = true) :
    (bounceCell X st p).barrierFx = st.barrierFx +
      (st.nE (p.1 + p.2 * X) + st.nNE (p.1 + p.2 * X) + st.nSE (p.1 + p.2 * X) -
       st.nW (p.1 + p.2 * X) - st.nNW (p.1 + p.2 * X) -
       st.nSW (p.1 + p.2 * X)) := by
  simp only [bounceCell]
  rw [if_pos h]

theorem bounceCell_Fy_true (X : Nat) (st : LBMState) (p : Nat × Nat)
    (h : st.barrier (p.1 + p.2 * X) = true) :
    (bounceCell X st p).barrierFy = st.barrierFy +
      (st.nN (p.1 + p.2 * X) + st.nNE (p.1 + p.2 * X) + st.nNW (p.1 + p.2 * X) -
       st.nS (p.1 + p.2 * X) - st.nSE (p.1 + p.2 * X) -
       st.nSW (p.1 + p.2 * X)) := by
  simp only [bounceCell]
  rw [if_pos h]

theorem bounceCell_nN_true (X : Nat) (st : LBMState) (p : Nat × Nat)
    (h : st.barrier (p.1 + p.2 * X) = true) :
    (bounceCell X st p).nN =
      Function.update st.nN (p.1 + (p.2 + 1) * X) (st.nS (p.1 + p.2 * X)) := by
  simp only [bounceCell]
  rw [if_pos h]

theorem bounceCell_nS_true (X : Nat) (st : LBMState) (p : Nat × Nat)
    (h : st.barrier (p.1 + p.2 * X) = true) :
    (bounceCell X st p).nS =
      Function.update st.nS (p.1 + (p.2 - 1) * X) (st.nN (p.1 + p.2 * X)) := by
  simp only [bounceCell]
  rw [if_pos h]

theorem bounceCell_nNE_true (X : Nat) (st : LBMState) (p : Nat × Nat)
    (h : st.barrier (p.1 + p.2 * X) = true) :
    (bounceCell X st p).nNE =
      Function.update st.nNE (p.1 + 1 + (p.2 + 1) * X)
        (st.nSW (p.1 + p.2 * X)) := by
  simp only [bounceCell]
  rw [if_pos h]

theorem bounceCell_nNW_true (X : Nat) (st : LBMState) (p : Nat × Nat)
    (h : st.barrier (p.1 + p.2 * X) = true) :
    (bounceCell X st p).nNW =
      Function.update st.nNW (p.1 - 1 + (p.2 + 1) * X)
        (st.nSE (p.1 + p.2 * X)) := by
  simp only [bounceCell]
  rw [if_pos h]

theorem bounceCell_nSE_true (X : Nat) (st : LBMState) (p : Nat × Nat)
    (h : st.barrier (p.1 + p.2 * X) = true) :
    (bounceCell X st p).nSE =
      Function.update st.nSE (p.1 + 1 + (p.2 - 1) * X)
        (st.nNW (p.1 + p.2 * X)) := by
  simp only [bounceCell]
  rw [if_pos h]

theorem bounceCell_nSW_true (X : Nat) (st : LBMState) (p : Nat × Nat)
    (h : st.barrier (p.1 + p.2 * X) = true) :
    (bounceCell X st p).nSW =
      Function.update st.nSW (p.1 - 1 + (p.2 - 1) * X)
        (st.nNE (p.1 + p.2 * X)) := by
  simp only [bounceCell]
  rw [if_pos h]

theorem bounceFold_counts (X : Nat) (l : List (Nat × Nat)) :
    ∀ st : LBMState,
      (l.foldl (fun st p => bounceCell X st p) st).barrierCount =
        st.barrierCount +
          (l.filter (fun p => st.barrier (p.1 + p.2 * X))).length ∧
      (l.foldl (fun st p => bounceCell X st p) st).barrierxSum =
        st.barrierxSum +
          ((l.filter (fun p => st.barrier (p.1 + p.2 * X))).map Prod.fst).sum ∧
      (l.foldl (fun st p => bounceCell X st p) st).barrierySum =
        st.barrierySum +
          ((l.filter (fun p => st.barrier (p.1 + p.2 * X))).map Prod.snd).sum := by
  induction l with
  | nil => intro st; simp [List.filter_nil]
  | cons q l ih =>
    intro st
    rw [List.foldl_cons]
    rcases hb : st.barrier (q.1 + q.2 * X) with _ | _
    · rw [bounceCell_not X st q hb]
      obtain ⟨i1, i2, i3⟩ := ih st
      refine ⟨?_, ?_, ?_⟩ <;> simp [List.filter_cons, hb, i1, i2, i3]
    · obtain ⟨i1, i2, i3⟩ := ih (bounceCell X st q)
      rw [bounceCell_barrier_eq] at i1 i2 i3
      refine ⟨?_, ?_, ?_⟩ <;>
        (simp only [List.filter_cons, hb, if_pos, List.length_cons,
          List.map_cons, List.sum_cons, i1, i2, i3, bounceCell_count_true X st q hb,
          bounceCell_xSum_true X st q hb, bounceCell_ySum_true X st q hb]
         omega)

theorem bounceFold_force (X : Nat) (l : List (Nat × Nat)) :
    ∀ (t st : LBMState),
      st.barrier = t.barrier →
      (∀ p ∈ l, t.barrier (p.1 + p.2 * X) = true →
        st.nE (p.1 + p.2 * X) = t.nE (p.1 + p.2 * X) ∧
        st.nW (p.1 + p.2 * X) = t.nW (p.1 + p.2 * X) ∧
        st.nN (p.1 + p.2 * X) = t.nN (p.1 + p.2 * X) ∧
        st.nS (p.1 + p.2 * X) = t.nS (p.1 + p.2 * X) ∧
        st.nNE (p.1 + p.2 * X) = t.nNE (p.1 + p.2 * X) ∧
        st.nNW (p.1 + p.2 * X) = t.nNW (p.1 + p.2 * X) ∧
        st.nSE (p.1 + p.2 * X) = t.nSE (p.1 + p.2 * X) ∧
        st.nSW (p.1 + p.2 * X) = t.nSW (p.1 + p.2 * X)) →
      (∀ p ∈ l, ∀ q ∈ l, t.barrier (p.1 + p.2 * X) = true →
        t.barrier (q.1 + q.2 * X) = true → p ≠ q →
        ¬(p.1 ≤ q.1 + 1 ∧ q.1 ≤ p.1 + 1 ∧ p.2 ≤ q.2 + 1 ∧ q.2 ≤ p.2 + 1)) →
      (∀ p ∈ l, 1 ≤ p.1 ∧ p.1 < X - 1 ∧ 1 ≤ p.2) →
      l.Nodup →
      (l.foldl (fun st p => bounceCell X st p) st).barrierFx =
        st.barrierFx + ((l.filter (fun p => t.barrier (p.1 + p.2 * X))).map
          (forceX t X)).sum ∧
      (l.foldl (fun st p => bounceCell X st p) st).barrierFy =
        st.barrierFy + ((l.filter (fun p => t.barrier (p.1 + p.2 * X))).map
          (forceY t X)).sum := by
  induction l with
  | nil => intro t st _ _ _ _ _; simp [List.filter_nil]
  | cons q l ih =>
    intro t st hbar hagree hiso hran hnd
    rw [List.foldl_cons]
    have hranq := hran q (List.mem_cons_self ..)
    rcases hb : t.barrier (q.1 + q.2 * X) with _ | _
    · have hb' : st.barrier (q.1 + q.2 * X) = false := by rw [hbar]; exact hb
      rw [bounceCell_not X st q hb']
      obtain ⟨i1, i2⟩ := ih t st hbar
        (fun p hp => hagree p (List.mem_cons_of_mem _ hp))
        (fun p hp q' hq' => hiso p (List.mem_cons_of_mem _ hp) q'
          (List.mem_cons_of_mem _ hq'))
        (fun p hp => hran p (List.mem_cons_of_mem _ hp))
        (List.nodup_cons.mp hnd).2
      refine ⟨?_, ?_⟩ <;> simp [List.filter_cons, hb, i1, i2]
    · have hb' : st.barrier (q.1 + q.2 * X) = true := by rw [hbar]; exact hb
      obtain ⟨a1, a2, a3, a4, a5, a6, a7, a8⟩ :=
        hagree q (List.mem_cons_self ..) hb
      have hagree' : ∀ p ∈ l, t.barrier (p.1 + p.2 * X) = true →
          (bounceCell X st q).nE (p.1 + p.2 * X) = t.nE (p.1 + p.2 * X) ∧
          (bounceCell X st q).nW (p.1 + p.2 * X) = t.nW (p.1 + p.2 * X) ∧
          (bounceCell X st q).nN (p.1 + p.2 * X) = t.nN (p.1 + p.2 * X) ∧
          (bounceCell X st q).nS (p.1 + p.2 * X) = t.nS (p.1 + p.2 * X) ∧
          (bounceCell X st q).nNE (p.1 + p.2 * X) = t.nNE (p.1 + p.2 * X) ∧
          (bounceCell X st q).nNW (p.1 + p.2 * X) = t.nNW (p.1 + p.2 * X) ∧
          (bounceCell X st q).nSE (p.1 + p.2 * X) = t.nSE (p.1 + p.2 * X) ∧
          (bounceCell X st q).nSW (p.1 + p.2 * X) = t.nSW (p.1 + p.2 * X) := by
        intro p hp hbp
        obtain ⟨g1, g2, g3, g4, g5, g6, g7, g8⟩ :=
          hagree p (List.mem_cons_of_mem _ hp) hbp
        have hranp := hran p (List.mem_cons_of_mem _ hp)
        have hpq : p ≠ q := by
          rintro rfl
          exact (List.nodup_cons.mp hnd).1 hp
        have hnadj := hiso p (List.mem_cons_of_mem _ hp) q
          (List.mem_cons_self ..) hbp hb hpq
        refine ⟨?_, ?_, ?_, ?_, ?_, ?_, ?_, ?_⟩
        · rw [bounceCell_nE_true X st q hb', Function.update_noteq ?_]
          · exact g1
          · intro hc
            obtain ⟨e1, e2⟩ := idx_inj (X := X) (by omega) (by omega) hc
            exact hnadj ⟨by omega, by omega, by omega, by omega⟩
        · rw [bounceCell_nW_true X st q hb', Function.update_noteq ?_]
          · exact g2
          · intro hc
            obtain ⟨e1, e2⟩ := idx_inj (X := X) (by omega) (by omega) hc
            exact hnadj ⟨by omega, by omega, by omega, by omega⟩
        · rw [bounceCell_nN_true X st q hb', Function.update_noteq ?_]
          · exact g3
          · intro hc
            obtain ⟨e1, e2⟩ := idx_inj (X := X) (by omega) (by omega) hc
            exact hnadj ⟨by omega, by omega, by omega, by omega⟩
        · rw [bounceCell_nS_true X st q hb', Function.update_noteq ?_]
          · exact g4
          · intro hc
            obtain ⟨e1, e2⟩ := idx_inj (X := X) (by omega) (by omega) hc
            exact hnadj ⟨by omega, by omega, by omega, by omega⟩
        · rw [bounceCell_nNE_true X st q hb', Function.update_noteq ?_]
          · exact g5
          · intro hc
            obtain ⟨e1, e2⟩ := idx_inj (X := X) (by omega) (by omega) hc
            exact hnadj ⟨by omega, by omega, by omega, by omega⟩
        · rw [bounceCell_nNW_true X st q hb', Function.update_noteq ?_]
          · exact g6
          · intro hc
            obtain ⟨e1, e2⟩ := idx_inj (X := X) (by omega) (by omega) hc
            exact hnadj ⟨by omega, by omega, by omega, by omega⟩
        · rw [bounceCell_nSE_true X st q hb', Function.update_noteq ?_]
          · exact g7
          · intro hc
            obtain ⟨e1, e2⟩ := idx_inj (X := X) (by omega) (by omega) hc
            exact hnadj ⟨by omega, by omega, by omega, by omega⟩
        · rw [bounceCell_nSW_true X st q hb', Function.update_noteq ?_]
          · exact g8
          · intro hc
            obtain ⟨e1, e2⟩ := idx_inj (X := X) (by omega) (by omega) hc
            exact hnadj ⟨by omega, by omega, by omega, by omega⟩
      have hbar' : (bounceCell X st q).barrier = t.barrier := by
        rw [bounceCell_barrier_eq]
        exact hbar
      obtain ⟨i1, i2⟩ := ih t (bounceCell X st q) hbar' hagree'
        (fun p hp q' hq' => hiso p (List.mem_cons_of_mem _ hp) q'
          (List.mem_cons_of_mem _ hq'))
        (fun p hp => hran p (List.mem_cons_of_mem _ hp))
        (List.nodup_cons.mp hnd).2
      refine ⟨?_, ?_⟩
      · rw [i1, bounceCell_Fx_true X st q hb', a1, a2, a5, a6, a7, a8]
        simp only [List.filter_cons, hb, if_true, List.map_cons, List.sum_cons,
          forceX]
        ring
      · rw [i2, bounceCell_Fy_true X st q hb', a3, a4, a5, a6, a7, a8]
        simp only [List.filter_cons, hb, if_true, List.map_cons, List.sum_cons,
          forceY]
        ring

/-- Amended C5: after every call to `stream()`, regardless of the
accumulators' prior values, `barrierCount`, `barrierxSum`, `barrierySum`
equal the count and coordinate sums of the interior barrier cells; and
PROVIDED no two barrier cells are adjacent (8-neighbourhood), `barrierFx`
and `barrierFy` equal the claimed sums of the post-streaming, pre-reflection
momentum fluxes at the barrier cells.  (With adjacent barrier cells the
in-place reflection of an earlier cell overwrites populations a later
barrier cell then reads, so the force sums differ from the claim.) -/
theorem stream_barrier_accumulators (s : LBMState) :
    (stream s).barrierCount = (barrierCells s).length ∧
    (stream s).barrierxSum = ((barrierCells s).map Prod.fst).sum ∧
    (stream s).barrierySum = ((barrierCells s).map Prod.snd).sum ∧
    ((∀ p ∈ barrierCells s, ∀ q ∈ barrierCells s, p ≠ q →
        ¬(p.1 ≤ q.1 + 1 ∧ q.1 ≤ p.1 + 1 ∧ p.2 ≤ q.2 + 1 ∧ q.2 ≤ p.2 + 1)) →
      (stream s).barrierFx = ((barrierCells s).map
        (forceX (streamSweeps (resetAcc s)) s.xdim)).sum ∧
      (stream s).barrierFy = ((barrierCells s).map
        (forceY (streamSweeps (resetAcc s)) s.xdim)).sum) := by
  have hbarT : (streamSweeps (resetAcc s)).barrier = s.barrier := by
    simp only [streamSweeps]
    rw [streamWSW_eq, streamSSE_eq, streamENE_eq, streamNNW_eq]
    rfl
  have htx : (streamSweeps (resetAcc s)).xdim = s.xdim := by
    simp only [streamSweeps]
    rw [streamWSW_eq, streamSSE_eq, streamENE_eq, streamNNW_eq]
    rfl
  have hty : (streamSweeps (resetAcc s)).ydim = s.ydim := by
    simp only [streamSweeps]
    rw [streamWSW_eq, streamSSE_eq, streamENE_eq, streamNNW_eq]
    rfl
  have hzC : (streamSweeps (resetAcc s)).barrierCount = 0 := by
    simp only [streamSweeps]
    rw [streamWSW_eq, streamSSE_eq, streamENE_eq, streamNNW_eq]
    rfl
  have hzX : (streamSweeps (resetAcc s)).barrierxSum = 0 := by
    simp only [streamSweeps]
    rw [streamWSW_eq, streamSSE_eq, streamENE_eq, streamNNW_eq]
    rfl
  have hzY : (streamSweeps (resetAcc s)).barrierySum = 0 := by
    simp only [streamSweeps]
    rw [streamWSW_eq, streamSSE_eq, streamENE_eq, streamNNW_eq]
    rfl
  have hzFx : (streamSweeps (resetAcc s)).barrierFx = 0 := by
    simp only [streamSweeps]
    rw [streamWSW_eq, streamSSE_eq, streamENE_eq, streamNNW_eq]
    rfl
  have hzFy : (streamSweeps (resetAcc s)).barrierFy = 0 := by
    simp only [streamSweeps]
    rw [streamWSW_eq, streamSSE_eq, streamENE_eq, streamNNW_eq]
    rfl
  simp only [stream, bouncePass]
  rw [htx, hty]
  obtain ⟨k1, k2, k3⟩ := bounceFold_counts s.xdim
    (cellsIn (ysAsc s.ydim) (xsAsc s.xdim)) (streamSweeps (resetAcc s))
  rw [hbarT] at k1 k2 k3
  refine ⟨?_, ?_, ?_, ?_⟩
  · rw [k1, hzC, barrierCells]
    exact Nat.zero_add _
  · rw [k2, hzX, barrierCells]
    exact Nat.zero_add _
  · rw [k3, hzY, barrierCells]
    exact Nat.zero_add _
  · intro hiso
    have hiso' : ∀ p ∈ cellsIn (ysAsc s.ydim) (xsAsc s.xdim),
        ∀ q ∈ cellsIn (ysAsc s.ydim) (xsAsc s.xdim),
        (streamSweeps (resetAcc s)).barrier (p.1 + p.2 * s.xdim) = true →
        (streamSweeps (resetAcc s)).barrier (q.1 + q.2 * s.xdim) = true →
        p ≠ q →
        ¬(p.1 ≤ q.1 + 1 ∧ q.1 ≤ p.1 + 1 ∧ p.2 ≤ q.2 + 1 ∧ q.2 ≤ p.2 + 1) := by
      intro p hp q hq hbp hbq hpq
      rw [hbarT] at hbp hbq
      exact hiso p (List.mem_filter.mpr ⟨hp, hbp⟩) q
        (List.mem_filter.mpr ⟨hq, hbq⟩) hpq
    obtain ⟨f1, f2⟩ := bounceFold_force s.xdim
      (cellsIn (ysAsc s.ydim) (xsAsc s.xdim)) (streamSweeps (resetAcc s))
      (streamSweeps (resetAcc s)) rfl
      (fun p _ _ => ⟨rfl, rfl, rfl, rfl, rfl, rfl, rfl, rfl⟩) hiso'
      (fun p hp => by
        have h1 := mem_xsAsc.mp (mem_cellsIn.mp hp).1
        have h2 := mem_ysAsc.mp (mem_cellsIn.mp hp).2
        omega)
      (nodup_cellsIn nodup_ysAsc nodup_xsAsc)
    rw [hbarT] at f1 f2
    rw [f1, f2, hzFx, hzFy, barrierCells]
    exact ⟨by ring, by ring⟩

/-- Witness for amended C5 on `cs7` (one isolated barrier cell at (2,2)). -/
theorem stream_barrier_accumulators_witness :
    (∀ p ∈ barrierCells cs7, ∀ q ∈ barrierCells cs7, p ≠ q →
        ¬(p.1 ≤ q.1 + 1 ∧ q.1 ≤ p.1 + 1 ∧ p.2 ≤ q.2 + 1 ∧ q.2 ≤ p.2 + 1)) ∧
    (stream cs7).barrierCount = (barrierCells cs7).length ∧
    (stream cs7).barrierxSum = ((barrierCells cs7).map Prod.fst).sum ∧
    (stream cs7).barrierFx = ((barrierCells cs7).map
      (forceX (streamSweeps (resetAcc cs7)) cs7.xdim)).sum ∧
    (stream cs7).barrierFy = ((barrierCells cs7).map
      (forceY (streamSweeps (resetAcc cs7)) cs7.xdim)).sum :=
  ⟨by decide, (stream_barrier_accumulators cs7).1,
    (stream_barrier_accumulators cs7).2.1,
    ((stream_barrier_accumulators cs7).2.2.2 (by decide)).1,
    ((stream_barrier_accumulators cs7).2.2.2 (by decide)).2⟩

theorem bounceFold_filter (X : Nat) (l : List (Nat × Nat)) :
    ∀ st : LBMState, l.foldl (fun st p => bounceCell X st p) st =
      (l.filter (fun p => st.barrier (p.1 + p.2 * X))).foldl
        (fun st p => bounceCell X st p) st := by
  induction l with
  | nil => intro st; rfl
  | cons q l ih =>
    intro st
    rw [List.foldl_cons]
    rcases hb : st.barrier (q.1 + q.2 * X) with _ | _
    · rw [bounceCell_not X st q hb]
      simp only [List.filter_cons, hb, Bool.false_eq_true, if_false]
      exact ih st
    · have h2 := ih (bounceCell X st q)
      rw [bounceCell_barrier_eq] at h2
      rw [h2]
      simp only [List.filter_cons, hb, if_true, List.foldl_cons]

/-- State used in the C5 counterexample: a 6×6 grid with two ADJACENT
barrier cells (2,2) and (3,2) and distinguishable `nE`/`nW` arrays. -/
def cs5 : LBMState :=
  { baseState 6 6 with
    barrier := fun i => i == 14 || i == 15
    nE := fun i => (i : ℚ)
    nW := fun i => 2 * (i : ℚ) + 1 }

/-- Counterexample to C5 as stated: with two adjacent barrier cells the
bounce-back pass of the first cell overwrites the East slot the second cell
then reads, so `barrierFx` does NOT equal the claimed sum of the
post-streaming, pre-reflection fluxes. -/
theorem stream_barrier_accumulators_counterexample :
    (stream cs5).barrierFx ≠ ((barrierCells cs5).map
      (forceX (streamSweeps (resetAcc cs5)) cs5.xdim)).sum := by
  have hbarT : (streamSweeps (resetAcc cs5)).barrier = cs5.barrier := by
    simp only [streamSweeps]
    rw [streamWSW_eq, streamSSE_eq, streamENE_eq, streamNNW_eq]
    rfl
  have htx : (streamSweeps (resetAcc cs5)).xdim = 6 := by
    simp only [streamSweeps]
    rw [streamWSW_eq, streamSSE_eq, streamENE_eq, streamNNW_eq]
    rfl
  have hty : (streamSweeps (resetAcc cs5)).ydim = 6 := by
    simp only [streamSweeps]
    rw [streamWSW_eq, streamSSE_eq, streamENE_eq, streamNNW_eq]
    rfl
  have hzFx : (streamSweeps (resetAcc cs5)).barrierFx = 0 := by
    simp only [streamSweeps]
    rw [streamWSW_eq, streamSSE_eq, streamENE_eq, streamNNW_eq]
    rfl
  have h1x : (streamNNW (resetAcc cs5)).xdim = 6 := by
    rw [streamNNW_eq]
    rfl
  have h1y : (streamNNW (resetAcc cs5)).ydim = 6 := by
    rw [streamNNW_eq]
    rfl
  have h2x : (streamENE (streamNNW (resetAcc cs5))).xdim = 6 := by
    rw [streamENE_eq]
    exact h1x
  have h2y : (streamENE (streamNNW (resetAcc cs5))).ydim = 6 := by
    rw [streamENE_eq]
    exact h1y
  have h3x : (streamSSE (streamENE (streamNNW (resetAcc cs5)))).xdim = 6 := by
    rw [streamSSE_eq]
    exact h2x
  have h3y : (streamSSE (streamENE (streamNNW (resetAcc cs5)))).ydim = 6 := by
    rw [streamSSE_eq]
    exact h2y
  have wE : ∀ t : LBMState, (streamWSW t).nE = t.nE := fun t => by
    rw [streamWSW_eq]
  have sE : ∀ t : LBMState, (streamSSE t).nE = t.nE := fun t => by
    rw [streamSSE_eq]
  have nE2 : ∀ t : LBMState, (streamNNW t).nE = t.nE := fun t => by
    rw [streamNNW_eq]
  have sW : ∀ t : LBMState, (streamSSE t).nW = t.nW := fun t => by
    rw [streamSSE_eq]
  have eW : ∀ t : LBMState, (streamENE t).nW = t.nW := fun t => by
    rw [streamENE_eq]
  have nW2 : ∀ t : LBMState, (streamNNW t).nW = t.nW := fun t => by
    rw [streamNNW_eq]
  have hW : (streamSweeps (resetAcc cs5)).nW 14 = 31 := by
    show (streamSweeps (resetAcc cs5)).nW (2 + 2 * 6) = 31
    simp only [streamSweeps]
    rw [streamWSW_nW_at _ h3x h3y (by decide) (by decide) (by decide) (by decide),
      sW, eW, nW2]
    show cs5.nW (2 + 1 + 2 * 6) = 31
    norm_num [cs5, baseState]
  have hE : (streamSweeps (resetAcc cs5)).nE 15 = 14 := by
    show (streamSweeps (resetAcc cs5)).nE (3 + 2 * 6) = 14
    simp only [streamSweeps]
    rw [wE, sE, streamENE_nE_at _ h1x h1y (by decide) (by decide) (by decide)
      (by decide), nE2]
    show cs5.nE (3 - 1 + 2 * 6) = 14
    norm_num [cs5, baseState]
  have hbc : barrierCells cs5 = [(2, 2), (3, 2)] := by decide
  simp only [stream, bouncePass]
  rw [htx, hty]
  rw [bounceFold_filter 6 (cellsIn (ysAsc 6) (xsAsc 6))
    (streamSweeps (resetAcc cs5))]
  rw [hbarT]
  have hfl : (cellsIn (ysAsc 6) (xsAsc 6)).filter
      (fun p => cs5.barrier (p.1 + p.2 * 6)) = [(2, 2), (3, 2)] := by decide
  rw [hfl]
  simp only [List.foldl_cons, List.foldl_nil]
  rw [bounceCell_Fx_true 6 _ (3, 2) (by rw [bounceCell_barrier_eq, hbarT]; decide)]
  rw [bounceCell_Fx_true 6 _ (2, 2) (by rw [hbarT]; decide)]
  rw [bounceCell_nE_true 6 _ (2, 2) (by rw [hbarT]; decide),
    bounceCell_nNE_true 6 _ (2, 2) (by rw [hbarT]; decide),
    bounceCell_nSE_true 6 _ (2, 2) (by rw [hbarT]; decide),
    bounceCell_nW_true 6 _ (2, 2) (by rw [hbarT]; decide),
    bounceCell_nNW_true 6 _ (2, 2) (by rw [hbarT]; decide),
    bounceCell_nSW_true 6 _ (2, 2) (by rw [hbarT]; decide)]
  rw [hbc, show cs5.xdim = 6 from rfl]
  simp only [List.map_cons, List.map_nil, List.sum_cons, List.sum_nil,
    forceX, Function.update_apply, hzFx]
  norm_num
  intro hcontra
  rw [hW, hE] at hcontra
  linarith

end SalmonLBM
